import Mathlib

/-!
CubeGame: a shallow embedding of `main.go`.

The simulation core of the game (two bouncing squares, pickups that tint the
field, the shrink rule and the winner determination) is embedded as pure
functions on an explicit `Game` record.

Modelling conventions:

* `float64` values are modelled as exact rationals (`ℚ`); rounding is not
  modelled, so the statements below are about the idealised arithmetic. The one
  exception is `overlapsSquareCircleF64`, which rounds every operation of the
  square-circle test with `roundF64` (IEEE 754 binary64, round-to-nearest-even).
* Go `int` is modelled as `Int` with an explicit 64-bit wrap on increment;
  Go `%` is the truncated remainder `Int.tmod`.
* `*Square` / `*CirclePickup` pointers are modelled by value: the two squares
  are always distinct allocations, and pickups are never mutated.
* `math/rand` is modelled by passing the three values drawn by `spawnPickup`
  (`rand.Intn(3)`, and two `rand.Float64()`) as an explicit `Draw` argument.
-/

namespace CubeGame

/-! ## Constants and colours -/

/-- Go constant `windowW`. -/
def windowW : Int := 800

/-- Go constant `windowH`. -/
def windowH : Int := 600

/-- Go constant `shrunkRatio`. -/
def shrunkRatio : ℚ := 0.2

/-- Go type `Screen` (an `iota` enumeration). -/
inductive Screen where
  | ScreenMenu
  | ScreenExitConfirm
  | ScreenGame
  | ScreenGameOver
  deriving DecidableEq, Repr

/-- Go type `color.RGBA`; the four channels are `uint8` values. Every
`color.Color` of the program is a `color.RGBA`, so interface equality `==` is
structural equality of this record. -/
structure RGBA where
  R : Nat
  G : Nat
  B : Nat
  A : Nat
  deriving DecidableEq, Repr

/-- Go method `color.RGBA.RGBA()`: each channel `c` becomes `c | c << 8`. -/
def RGBA.rgba (c : RGBA) : Nat × Nat × Nat × Nat :=
  (c.R ||| (c.R <<< 8), c.G ||| (c.G <<< 8), c.B ||| (c.B <<< 8), c.A ||| (c.A <<< 8))

def redColor : RGBA := { R := 0xFF, G := 0x00, B := 0x00, A := 0xFF }
def lightRedColor : RGBA := { R := 0xF3, G := 0x64, B := 0x68, A := 0xFF }
def greenColor : RGBA := { R := 0x00, G := 0xC8, B := 0x00, A := 0xFF }
def lightGreenColor : RGBA := { R := 0x8C, G := 0xF3, B := 0x8B, A := 0xFF }
def whiteColor : RGBA := { R := 0xFF, G := 0xFF, B := 0xFF, A := 0xFF }
def blackColor : RGBA := { R := 0x00, G := 0x00, B := 0x00, A := 0xFF }
def grayColor : RGBA := { R := 0x20, G := 0x20, B := 0x20, A := 0xFF }

/-! ## Records -/

/-- Go type `image.Rectangle` (`Min`/`Max` corner points). -/
structure Rectangle where
  MinX : Int
  MinY : Int
  MaxX : Int
  MaxY : Int
  deriving DecidableEq, Repr

/-- Go function `image.Rect`: builds a canonical rectangle, swapping
coordinates that come in the wrong order. -/
def imageRect (x0 y0 x1 y1 : Int) : Rectangle :=
  let (x0, x1) := if x0 > x1 then (x1, x0) else (x0, x1)
  let (y0, y1) := if y0 > y1 then (y1, y0) else (y0, y1)
  { MinX := x0, MinY := y0, MaxX := x1, MaxY := y1 }

/-- Go type `Button`. -/
structure Button where
  Rect : Rectangle
  Text : String
  deriving DecidableEq, Repr

/-- Go method `Button.Contains`. -/
def Button.Contains (b : Button) (x y : Int) : Bool :=
  decide (x ≥ b.Rect.MinX) && decide (x ≤ b.Rect.MaxX) &&
    decide (y ≥ b.Rect.MinY) && decide (y ≤ b.Rect.MaxY)

/-- Go type `Square`. -/
structure Square where
  X : ℚ
  Y : ℚ
  W : ℚ
  InitW : ℚ
  VX : ℚ
  VY : ℚ
  Col : RGBA
  Name : String
  deriving DecidableEq

/-- Go type `CirclePickup`. -/
structure CirclePickup where
  X : ℚ
  Y : ℚ
  R : ℚ
  Col : RGBA
  deriving DecidableEq

/-- Go type `Game`. -/
structure Game where
  screen : Screen
  btnStart : Button
  btnExit : Button
  btnBack : Button
  btnYes : Button
  fieldX : ℚ
  fieldY : ℚ
  fieldW : ℚ
  fieldH : ℚ
  bgColor : RGBA
  sq1 : Square
  sq2 : Square
  pickups : List CirclePickup
  ticks : Int
  winnerName : String
  btnRetry : Button
  btnMenu : Button
  deriving DecidableEq

/-- The values `spawnPickup` takes from `math/rand`, in call order:
`rand.Intn(3)`, then `rand.Float64()` for x, then `rand.Float64()` for y. -/
structure Draw where
  randNum : Int
  randX : ℚ
  randY : ℚ
  deriving DecidableEq

/-- The range of the random source: `Intn(3)` is in `{0,1,2}` and
`Float64()` is in `[0,1)`. -/
def Draw.valid (d : Draw) : Bool :=
  decide (0 ≤ d.randNum) && decide (d.randNum < 3) &&
    decide (0 ≤ d.randX) && decide (d.randX < 1) &&
    decide (0 ≤ d.randY) && decide (d.randY < 1)

/-! ## Machine integers -/

/-- Two's-complement wrap of an integer into the 64-bit range of Go `int`. -/
def wrapInt64 (n : Int) : Int := (n + 2 ^ 63) % 2 ^ 64 - 2 ^ 63

/-- Go conversion `int(f)` of a float: truncation toward zero. -/
def truncToInt (f : ℚ) : Int := if 0 ≤ f then ⌊f⌋ else ⌈f⌉

/-! ## Geometry primitives -/

/-- Go function `clamp`. -/
def clamp (v a b : ℚ) : ℚ :=
  if v < a then a
  else if v > b then b
  else v

/-- Go function `overlapsSquareCircle`. -/
def overlapsSquareCircle (s : Square) (c : CirclePickup) : Bool :=
  let cx := clamp c.X s.X (s.X + s.W)
  let cy := clamp c.Y s.Y (s.Y + s.W)
  let dx := cx - c.X
  let dy := cy - c.Y
  decide (dx * dx + dy * dy ≤ c.R * c.R)

/-- Go function `aabbOverlap`. -/
def aabbOverlap (a b : Square) : Bool :=
  !(decide (a.X + a.W < b.X) || decide (b.X + b.W < a.X) ||
    decide (a.Y + a.W < b.Y) || decide (b.Y + b.W < a.Y))

/-- Go function `colorsEqual`: compares the red, green and blue channels
returned by `RGBA()`, ignoring alpha. -/
def colorsEqual (a b : RGBA) : Bool :=
  let (r1, g1, b1, _) := a.rgba
  let (r2, g2, b2, _) := b.rgba
  decide (r1 = r2) && decide (g1 = g2) && decide (b1 = b2)

/-! ## Round set-up -/

/-- Go method `Game.resetGameState`. -/
def resetGameState (g : Game) : Game :=
  let initSize : ℚ := 60.0
  { g with
    sq1 := { X := g.fieldX + 80, Y := g.fieldY + 60, W := initSize, InitW := initSize,
             VX := 3.2, VY := 2.6, Col := redColor, Name := "Red" }
    sq2 := { X := g.fieldX + g.fieldW - 140, Y := g.fieldY + g.fieldH - 140, W := initSize,
             InitW := initSize, VX := -3.0, VY := -2.8, Col := greenColor, Name := "Green" }
    pickups := []
    ticks := 0
    bgColor := { R := 0x20, G := 0x20, B := 0x20, A := 0xFF }
    winnerName := "" }

/-- The zero value `&Game{}` that `NewGame` starts from. -/
def zeroGame : Game :=
  let zb : Button := { Rect := { MinX := 0, MinY := 0, MaxX := 0, MaxY := 0 }, Text := "" }
  let zs : Square :=
    { X := 0, Y := 0, W := 0, InitW := 0, VX := 0, VY := 0,
      Col := { R := 0, G := 0, B := 0, A := 0 }, Name := "" }
  { screen := Screen.ScreenMenu, btnStart := zb, btnExit := zb, btnBack := zb, btnYes := zb,
    fieldX := 0, fieldY := 0, fieldW := 0, fieldH := 0,
    bgColor := { R := 0, G := 0, B := 0, A := 0 },
    sq1 := zs, sq2 := zs, pickups := [], ticks := 0, winnerName := "",
    btnRetry := zb, btnMenu := zb }

/-- Go function `NewGame`. The squares of the zero value are nil pointers in
Go; they are overwritten by `resetGameState` before any use. -/
def NewGame : Game :=
  let g := zeroGame
  let g := { g with screen := Screen.ScreenMenu }
  let g := { g with btnStart :=
    { Rect := imageRect (windowW / 2 - 100) 120 (windowW / 2 + 100) 170, Text := "Start" } }
  let g := { g with btnExit :=
    { Rect := imageRect (windowW / 2 - 100) 190 (windowW / 2 + 100) 240, Text := "Exit" } }
  let g := { g with btnBack :=
    { Rect := imageRect (windowW / 2 - 120) 320 (windowW / 2 - 10) 370, Text := "Go back" } }
  let g := { g with btnYes :=
    { Rect := imageRect (windowW / 2 + 10) 320 (windowW / 2 + 120) 370, Text := "Yes" } }
  let g := { g with btnRetry :=
    { Rect := imageRect (windowW / 2 - 120) 360 (windowW / 2 - 10) 410, Text := "Start again" } }
  let g := { g with btnMenu :=
    { Rect := imageRect (windowW / 2 + 10) 360 (windowW / 2 + 120) 410, Text := "To menu" } }
  let g := { g with fieldX := 50 }
  let g := { g with fieldY := 120 }
  let g := { g with fieldW := (windowW : ℚ) - 2 * g.fieldX }
  let g := { g with fieldH := ((windowH - truncToInt g.fieldY - 40 : Int) : ℚ) }
  let g := { g with bgColor := grayColor }
  resetGameState g

/-! ## One simulation tick -/

/-- Go method `Game.moveSquare`. -/
def moveSquare (g : Game) (s : Square) : Square :=
  let s := { s with X := s.X + s.VX }
  let s := { s with Y := s.Y + s.VY }
  let s := if s.X < g.fieldX then { s with X := g.fieldX, VX := |s.VX| } else s
  let s := if s.Y < g.fieldY then { s with Y := g.fieldY, VY := |s.VY| } else s
  let s := if s.X + s.W > g.fieldX + g.fieldW then
      { s with X := g.fieldX + g.fieldW - s.W, VX := -|s.VX| } else s
  let s := if s.Y + s.W > g.fieldY + g.fieldH then
      { s with Y := g.fieldY + g.fieldH - s.W, VY := -|s.VY| } else s
  s

/-- The pickup `p` built by `Game.spawnPickup` (source lines 274-286), with the
random values passed in. -/
def newPickup (g : Game) (d : Draw) : CirclePickup :=
  let col : RGBA :=
    if d.randNum = 0 then redColor
    else if d.randNum = 1 then greenColor
    else grayColor
  let r : ℚ := 10.0
  let x := g.fieldX + r + d.randX * (g.fieldW - 2 * r)
  let y := g.fieldY + r + d.randY * (g.fieldH - 2 * r)
  { X := x, Y := y, R := r, Col := col }

/-- Go method `Game.spawnPickup`: append the new pickup to the list. -/
def spawnPickup (g : Game) (d : Draw) : Game :=
  let p := newPickup g d
  { g with pickups := g.pickups ++ [p] }

/-- First part of `updateGameLogic` (source lines 176-183): increment the tick
counter and, every 360 ticks, clear the pickup list and spawn one pickup. -/
def spawnPhase (g : Game) (d : Draw) : Game :=
  let g := { g with ticks := wrapInt64 (g.ticks + 1) }
  if g.ticks.tmod 360 = 0 then
    let g := if g.pickups.length ≠ 0 then { g with pickups := [] } else g
    spawnPickup g d
  else g

/-- Second part of `updateGameLogic` (source lines 186-187): move both squares. -/
def movePhase (g : Game) : Game :=
  let g := { g with sq1 := moveSquare g g.sq1 }
  let g := { g with sq2 := moveSquare g g.sq2 }
  g

/-- The background colour that the pickup loop of `updateGameLogic` assigns to
`g.bgColor` when a pickup of colour `c` is consumed (source lines 193-199). -/
def tintFor (c : RGBA) : RGBA :=
  if c = greenColor then lightGreenColor
  else if c = redColor then lightRedColor
  else grayColor

/-- The body of the `for _, p := range g.pickups` loop of `updateGameLogic`
(source lines 191-203), threading the background colour and the `remaining`
slice through the iterations. -/
def pickupLoop (sq1 sq2 : Square) :
    List CirclePickup → RGBA → List CirclePickup → RGBA × List CirclePickup
  | [], bg, remaining => (bg, remaining)
  | p :: ps, bg, remaining =>
    if overlapsSquareCircle sq1 p || overlapsSquareCircle sq2 p then
      let bg := tintFor p.Col
      pickupLoop sq1 sq2 ps bg remaining
    else
      pickupLoop sq1 sq2 ps bg (remaining ++ [p])

/-- Third part of `updateGameLogic` (source lines 190-204): square-pickup
collisions. -/
def pickupPhase (g : Game) : Game :=
  let res := pickupLoop g.sq1 g.sq2 g.pickups g.bgColor []
  { g with bgColor := res.1, pickups := res.2 }

/-- Fourth part of `updateGameLogic` (source lines 207-234): square-square
collision, velocity swap and shrink. -/
def collisionPhase (g : Game) : Game :=
  if aabbOverlap g.sq1 g.sq2 then
    let tx := g.sq1.VX
    let ty := g.sq1.VY
    let g := { g with sq1 := { g.sq1 with VX := g.sq2.VX, VY := g.sq2.VY } }
    let g := { g with sq2 := { g.sq2 with VX := tx, VY := ty } }
    let bgCol : RGBA :=
      if g.bgColor = lightRedColor then redColor
      else if g.bgColor = lightGreenColor then greenColor
      else grayColor
    let v1 := !colorsEqual bgCol g.sq1.Col
    let v2 := !colorsEqual bgCol g.sq2.Col
    if v1 && !v2 then
      { g with sq1 := { g.sq1 with W := g.sq1.W - g.sq1.InitW * shrunkRatio } }
    else if v2 && !v1 then
      { g with sq2 := { g.sq2 with W := g.sq2.W - g.sq2.InitW * shrunkRatio } }
    else
      let g := { g with sq1 := { g.sq1 with W := g.sq1.W - g.sq1.InitW * shrunkRatio } }
      let g := { g with sq2 := { g.sq2 with W := g.sq2.W - g.sq2.InitW * shrunkRatio } }
      g
  else g

/-- Last part of `updateGameLogic` (source lines 237-246): the death check. -/
def deathCheck (g : Game) : Game :=
  if g.sq1.W ≤ 0 ∨ g.sq2.W ≤ 0 then
    let g :=
      if g.sq1.W ≤ 0 ∧ g.sq2.W ≤ 0 then { g with winnerName := "Pair" }
      else if g.sq1.W ≤ 0 then { g with winnerName := g.sq2.Name }
      else { g with winnerName := g.sq1.Name }
    { g with screen := Screen.ScreenGameOver }
  else g

/-- Go method `Game.updateGameLogic`: the five parts in source order. -/
def updateGameLogic (g : Game) (d : Draw) : Game :=
  deathCheck (collisionPhase (pickupPhase (movePhase (spawnPhase g d))))

/-- The input polled by `Game.Update` from the host: `ebiten.CursorPosition()`,
`ebiten.IsMouseButtonPressed(ebiten.MouseButtonLeft)` and
`ebiten.IsKeyPressed(ebiten.KeyEscape)`. -/
structure Input where
  mx : Int
  my : Int
  mouseClicked : Bool
  escapePressed : Bool
  deriving DecidableEq

/-- Go method `Game.Update`. The result `some g` is the state with which the
method returns the `nil` error; `none` is the process exit `os.Exit(0)`. -/
def Update (g : Game) (inp : Input) (d : Draw) : Option Game :=
  match g.screen with
  | Screen.ScreenMenu =>
    if inp.mouseClicked then
      let g := if g.btnStart.Contains inp.mx inp.my then
          resetGameState { g with screen := Screen.ScreenGame } else g
      let g := if g.btnExit.Contains inp.mx inp.my then
          { g with screen := Screen.ScreenExitConfirm } else g
      some g
    else some g
  | Screen.ScreenExitConfirm =>
    if inp.mouseClicked then
      let g := if g.btnBack.Contains inp.mx inp.my then
          { g with screen := Screen.ScreenMenu } else g
      if g.btnYes.Contains inp.mx inp.my then none else some g
    else some g
  | Screen.ScreenGame =>
    let g := updateGameLogic g d
    let g := if inp.escapePressed then { g with screen := Screen.ScreenMenu } else g
    some g
  | Screen.ScreenGameOver =>
    if inp.mouseClicked then
      let g := if g.btnRetry.Contains inp.mx inp.my then
          { resetGameState g with screen := Screen.ScreenGame } else g
      let g := if g.btnMenu.Contains inp.mx inp.my then
          { g with screen := Screen.ScreenMenu } else g
      some g
    else some g

/-- Repeated ticks, one random draw per tick. -/
def runTicks (g : Game) : List Draw → Game
  | [] => g
  | d :: ds => runTicks (updateGameLogic g d) ds

/-- The state of a tick just before its square-square collision step. -/
def beforeCollision (g : Game) (d : Draw) : Game :=
  pickupPhase (movePhase (spawnPhase g d))

/-- The containment inequalities of a square in the field of `g`. -/
def Contained (g : Game) (s : Square) : Prop :=
  g.fieldX ≤ s.X ∧ g.fieldY ≤ s.Y ∧
    s.X + s.W ≤ g.fieldX + g.fieldW ∧ s.Y + s.W ≤ g.fieldY + g.fieldH

/-- Size bound carried along a run: the initial sizes are non-negative and the
current sizes fit in the field. -/
def SizeInv (g : Game) : Prop :=
  0 ≤ g.sq1.InitW ∧ 0 ≤ g.sq2.InitW ∧ g.sq1.W ≤ g.fieldW ∧ g.sq1.W ≤ g.fieldH ∧
    g.sq2.W ≤ g.fieldW ∧ g.sq2.W ≤ g.fieldH

/-- A sample draw: colour index 0, both uniform draws in the lower part of `[0,1)`. -/
def sampleDraw : Draw := { randNum := 0, randX := 0.15, randY := 0.2 }

/-- The default round once it is running: the state after `Start` is pressed in
the menu of a new game. -/
def runningGame : Game := resetGameState { NewGame with screen := Screen.ScreenGame }

/-- The default round with the Green square placed on top of the Red one, so
that the two squares overlap during the next tick. -/
def overlapGame : Game :=
  { runningGame with
    sq2 := { runningGame.sq2 with X := runningGame.sq1.X + 10, Y := runningGame.sq1.Y + 10 } }

/-- The overlapping round with the Red square one shrink step away from zero. -/
def lastHitGame : Game :=
  { overlapGame with sq1 := { overlapGame.sq1 with W := 12 } }

/-- The state of a tick just after its square-square collision step, before the
death check. -/
def afterCollision (g : Game) (d : Draw) : Game :=
  collisionPhase (beforeCollision g d)

/-- A square of side 10 at the origin. -/
def touchA : Square :=
  { X := 0, Y := 0, W := 10, InitW := 10, VX := 1, VY := 0, Col := redColor, Name := "Red" }

/-- A square of side 10 whose left edge lies on the right edge of `touchA`. -/
def touchB : Square :=
  { X := 10, Y := 0, W := 10, InitW := 10, VX := -1, VY := 0, Col := greenColor,
    Name := "Green" }

/-- A running round whose two squares merely touch along one edge. -/
def touchGame : Game := { runningGame with sq1 := touchA, sq2 := touchB }

/-- Whether a pickup is touched by one of the two squares: the test of the
pickup loop of `updateGameLogic`. -/
def eaten (sq1 sq2 : Square) (p : CirclePickup) : Bool :=
  overlapsSquareCircle sq1 p || overlapsSquareCircle sq2 p

/-- A running round at tick 359 that still holds one Gray pickup. -/
def periodGame : Game :=
  { runningGame with ticks := 359, pickups := [{ X := 100, Y := 200, R := 10, Col := grayColor }] }

/-- A draw whose pickup lands far from both squares of `periodGame`. -/
def farDraw : Draw := { randNum := 1, randX := 0.9, randY := 0.2 }

/-- A pickup of radius 10 whose centre lies in the field of `g` shrunk by 10 on
every side. -/
def InShrunkField (g : Game) (p : CirclePickup) : Prop :=
  p.R = 10 ∧ g.fieldX + 10 ≤ p.X ∧ p.X ≤ g.fieldX + g.fieldW - 10 ∧
    g.fieldY + 10 ≤ p.Y ∧ p.Y ≤ g.fieldY + g.fieldH - 10

/-- The default running round with a Red pickup lying at the centre of sq1. -/
def redPickupGame : Game :=
  { runningGame with
    pickups := [{ X := runningGame.sq1.X + runningGame.sq1.W / 2,
                  Y := runningGame.sq1.Y + runningGame.sq1.W / 2, R := 10, Col := redColor }] }

/-- The default running round with the velocity of sq1 replaced by `(100, 0)`. -/
def fastGame : Game :=
  { runningGame with sq1 := { runningGame.sq1 with VX := 100, VY := 0 } }

/-- Whether, on each tick of the run `ds` from `g`, the tint at collision time is
`tint` and the moved squares overlap. -/
def collidesWithTint (tint : RGBA) (g : Game) : List Draw → Bool
  | [] => true
  | d :: ds =>
    decide ((beforeCollision g d).bgColor = tint) &&
      aabbOverlap (beforeCollision g d).sq1 (beforeCollision g d).sq2 &&
      collidesWithTint tint (updateGameLogic g d) ds

/-- The overlapping default round with a LightGreen tint. -/
def lightGreenGame : Game := { overlapGame with bgColor := lightGreenColor }

/-- Repeated `Update` frames, each with its polled input and the random values
available to its tick; `none` once the process has exited. -/
def runFrames (g : Game) : List (Input × Draw) → Option Game
  | [] => some g
  | f :: fs =>
    match Update g f.1 f.2 with
    | none => none
    | some g' => runFrames g' fs

/-- The size lattice of a square: `W` is `InitW` minus a natural multiple of the
shrink step `InitW * 0.2`, at most `InitW` and at least `-(InitW * 0.2)`. -/
def OnLattice (s : Square) : Prop :=
  (∃ k : ℕ, s.W = s.InitW - k * (s.InitW * 0.2)) ∧ s.W ≤ s.InitW ∧ -(s.InitW * 0.2) ≤ s.W

/-- Invariant of the frames of the game: both squares have initial size 60 and a
size `60 - 12 k` with `k ≤ 5`, and while the game screen is shown both sizes are
positive. -/
def FrameInv (g : Game) : Prop :=
  g.sq1.InitW = 60 ∧ g.sq2.InitW = 60 ∧
    (∃ k : ℕ, k ≤ 5 ∧ g.sq1.W = 60 - 12 * k) ∧ (∃ k : ℕ, k ≤ 5 ∧ g.sq2.W = 60 - 12 * k) ∧
    (g.screen = Screen.ScreenGame → 0 < g.sq1.W ∧ 0 < g.sq2.W)

/-- A frame with no click and no key: the game only ticks. -/
def idleInput : Input := { mx := 0, my := 0, mouseClicked := false, escapePressed := false }

/-- A frame with the Escape key held and no click. -/
def escapeInput : Input := { mx := 0, my := 0, mouseClicked := false, escapePressed := true }

/-- A state outside the reach of `Update`: the LightGreen round with the Red square
already at size 0 and lying inside the Green square. -/
def engulfedGame : Game :=
  { lightGreenGame with
    sq1 := { lightGreenGame.sq1 with W := 0 }
    sq2 := { lightGreenGame.sq2 with X := lightGreenGame.sq1.X - 30,
                                     Y := lightGreenGame.sq1.Y - 30 } }

/-- Invariant of the velocities: the two squares carry the two initial velocity
vectors up to the sign of each component, in the original or in the swapped
assignment. -/
def VelInv (g : Game) : Prop :=
  (|g.sq1.VX| = 3.2 ∧ |g.sq1.VY| = 2.6 ∧ |g.sq2.VX| = 3.0 ∧ |g.sq2.VY| = 2.8) ∨
    (|g.sq1.VX| = 3.0 ∧ |g.sq1.VY| = 2.8 ∧ |g.sq2.VX| = 3.2 ∧ |g.sq2.VY| = 2.6)

theorem moveSquare_frame (g : Game) (s : Square) :
    (moveSquare g s).W = s.W ∧ (moveSquare g s).InitW = s.InitW ∧
      (moveSquare g s).Col = s.Col ∧ (moveSquare g s).Name = s.Name := by
  unfold moveSquare
  simp only
  split_ifs <;> simp

theorem spawnPickup_frame (g : Game) (d : Draw) :
    (spawnPickup g d).sq1 = g.sq1 ∧ (spawnPickup g d).sq2 = g.sq2 ∧
      (spawnPickup g d).fieldX = g.fieldX ∧ (spawnPickup g d).fieldY = g.fieldY ∧
      (spawnPickup g d).fieldW = g.fieldW ∧ (spawnPickup g d).fieldH = g.fieldH ∧
      (spawnPickup g d).bgColor = g.bgColor ∧ (spawnPickup g d).screen = g.screen ∧
      (spawnPickup g d).winnerName = g.winnerName ∧ (spawnPickup g d).ticks = g.ticks := by
  simp [spawnPickup]

theorem spawnPhase_frame (g : Game) (d : Draw) :
    (spawnPhase g d).sq1 = g.sq1 ∧ (spawnPhase g d).sq2 = g.sq2 ∧
      (spawnPhase g d).fieldX = g.fieldX ∧ (spawnPhase g d).fieldY = g.fieldY ∧
      (spawnPhase g d).fieldW = g.fieldW ∧ (spawnPhase g d).fieldH = g.fieldH ∧
      (spawnPhase g d).bgColor = g.bgColor ∧ (spawnPhase g d).screen = g.screen ∧
      (spawnPhase g d).winnerName = g.winnerName := by
  unfold spawnPhase
  simp only
  split_ifs <;> simp [spawnPickup]

theorem movePhase_frame (g : Game) :
    (movePhase g).sq1 = moveSquare g g.sq1 ∧ (movePhase g).sq2 = moveSquare g g.sq2 ∧
      (movePhase g).fieldX = g.fieldX ∧ (movePhase g).fieldY = g.fieldY ∧
      (movePhase g).fieldW = g.fieldW ∧ (movePhase g).fieldH = g.fieldH ∧
      (movePhase g).bgColor = g.bgColor ∧ (movePhase g).screen = g.screen ∧
      (movePhase g).winnerName = g.winnerName ∧ (movePhase g).pickups = g.pickups ∧
      (movePhase g).ticks = g.ticks := by
  simp [movePhase, moveSquare]

theorem pickupPhase_frame (g : Game) :
    (pickupPhase g).sq1 = g.sq1 ∧ (pickupPhase g).sq2 = g.sq2 ∧
      (pickupPhase g).fieldX = g.fieldX ∧ (pickupPhase g).fieldY = g.fieldY ∧
      (pickupPhase g).fieldW = g.fieldW ∧ (pickupPhase g).fieldH = g.fieldH ∧
      (pickupPhase g).screen = g.screen ∧ (pickupPhase g).winnerName = g.winnerName ∧
      (pickupPhase g).ticks = g.ticks := by
  simp [pickupPhase]

theorem collisionPhase_frame (g : Game) :
    (collisionPhase g).fieldX = g.fieldX ∧ (collisionPhase g).fieldY = g.fieldY ∧
      (collisionPhase g).fieldW = g.fieldW ∧ (collisionPhase g).fieldH = g.fieldH ∧
      (collisionPhase g).screen = g.screen ∧ (collisionPhase g).winnerName = g.winnerName ∧
      (collisionPhase g).ticks = g.ticks ∧ (collisionPhase g).pickups = g.pickups ∧
      (collisionPhase g).bgColor = g.bgColor := by
  unfold collisionPhase
  simp only
  split_ifs <;> simp

theorem collisionPhase_squares (g : Game) :
    (collisionPhase g).sq1.X = g.sq1.X ∧ (collisionPhase g).sq1.Y = g.sq1.Y ∧
      (collisionPhase g).sq2.X = g.sq2.X ∧ (collisionPhase g).sq2.Y = g.sq2.Y ∧
      (collisionPhase g).sq1.InitW = g.sq1.InitW ∧ (collisionPhase g).sq2.InitW = g.sq2.InitW ∧
      (collisionPhase g).sq1.Col = g.sq1.Col ∧ (collisionPhase g).sq2.Col = g.sq2.Col ∧
      (collisionPhase g).sq1.Name = g.sq1.Name ∧ (collisionPhase g).sq2.Name = g.sq2.Name := by
  unfold collisionPhase
  simp only
  split_ifs <;> simp

theorem deathCheck_frame (g : Game) :
    (deathCheck g).sq1 = g.sq1 ∧ (deathCheck g).sq2 = g.sq2 ∧
      (deathCheck g).fieldX = g.fieldX ∧ (deathCheck g).fieldY = g.fieldY ∧
      (deathCheck g).fieldW = g.fieldW ∧ (deathCheck g).fieldH = g.fieldH ∧
      (deathCheck g).ticks = g.ticks ∧ (deathCheck g).pickups = g.pickups ∧
      (deathCheck g).bgColor = g.bgColor := by
  unfold deathCheck
  simp only
  split_ifs <;> simp

/-! ## Containment (C1) -/

theorem moveSquare_contained (g : Game) (s : Square)
    (hw : s.W ≤ g.fieldW) (hh : s.W ≤ g.fieldH) : Contained g (moveSquare g s) := by
  unfold moveSquare Contained
  simp only
  split_ifs with h1 h2 h3 h4 h4 h3 h4 h4 h2 h3 h4 h4 h3 h4 h4 <;> simp only [not_lt, gt_iff_lt] at * <;>
    refine ⟨?_, ?_, ?_, ?_⟩ <;> linarith

theorem collisionPhase_W_le (g : Game) (h1 : 0 ≤ g.sq1.InitW) (h2 : 0 ≤ g.sq2.InitW) :
    (collisionPhase g).sq1.W ≤ g.sq1.W ∧ (collisionPhase g).sq2.W ≤ g.sq2.W := by
  have hr : (0 : ℚ) ≤ shrunkRatio := by norm_num [shrunkRatio]
  have p1 := mul_nonneg h1 hr
  have p2 := mul_nonneg h2 hr
  unfold collisionPhase
  simp only
  split_ifs <;> simp <;> first | exact p1 | exact p2 | exact ⟨p1, p2⟩

theorem updateGameLogic_field (g : Game) (d : Draw) :
    (updateGameLogic g d).fieldX = g.fieldX ∧ (updateGameLogic g d).fieldY = g.fieldY ∧
      (updateGameLogic g d).fieldW = g.fieldW ∧ (updateGameLogic g d).fieldH = g.fieldH := by
  unfold updateGameLogic
  obtain ⟨-, -, a1, a2, a3, a4, -⟩ := deathCheck_frame
    (collisionPhase (pickupPhase (movePhase (spawnPhase g d))))
  obtain ⟨b1, b2, b3, b4, -⟩ := collisionPhase_frame (pickupPhase (movePhase (spawnPhase g d)))
  obtain ⟨-, -, c1, c2, c3, c4, -⟩ := pickupPhase_frame (movePhase (spawnPhase g d))
  obtain ⟨-, -, d1, d2, d3, d4, -⟩ := movePhase_frame (spawnPhase g d)
  obtain ⟨-, -, e1, e2, e3, e4, -⟩ := spawnPhase_frame g d
  refine ⟨?_, ?_, ?_, ?_⟩
  · rw [a1, b1, c1, d1, e1]
  · rw [a2, b2, c2, d2, e2]
  · rw [a3, b3, c3, d3, e3]
  · rw [a4, b4, c4, d4, e4]

/-- The squares just before the collision step are the moved squares. -/
theorem beforeCollision_squares (g : Game) (d : Draw) :
    (beforeCollision g d).sq1 = moveSquare g g.sq1 ∧
      (beforeCollision g d).sq2 = moveSquare g g.sq2 := by
  unfold beforeCollision
  obtain ⟨c1, c2, -⟩ := pickupPhase_frame (movePhase (spawnPhase g d))
  obtain ⟨d1, d2, -⟩ := movePhase_frame (spawnPhase g d)
  obtain ⟨e1, e2, e3, e4, e5, e6, -⟩ := spawnPhase_frame g d
  rw [c1, c2, d1, d2, e1, e2]
  constructor <;> simp [moveSquare, e3, e4, e5, e6]

theorem updateGameLogic_eq (g : Game) (d : Draw) :
    updateGameLogic g d = deathCheck (collisionPhase (beforeCollision g d)) := rfl

/-- One tick from a state satisfying the size bound: the bound is kept and both
squares end the tick inside the field. -/
theorem tick_contained (g : Game) (d : Draw) (h : SizeInv g) :
    SizeInv (updateGameLogic g d) ∧
      Contained (updateGameLogic g d) (updateGameLogic g d).sq1 ∧
      Contained (updateGameLogic g d) (updateGameLogic g d).sq2 := by
  obtain ⟨i1, i2, w1, h1, w2, h2⟩ := h
  obtain ⟨f1, f2, f3, f4⟩ := updateGameLogic_field g d
  obtain ⟨m1, m2⟩ := beforeCollision_squares g d
  obtain ⟨a1, a2, -⟩ := deathCheck_frame (collisionPhase (beforeCollision g d))
  obtain ⟨px1, py1, px2, py2, pi1, pi2, -⟩ := collisionPhase_squares (beforeCollision g d)
  obtain ⟨mw1, mi1, -⟩ := moveSquare_frame g g.sq1
  obtain ⟨mw2, mi2, -⟩ := moveSquare_frame g g.sq2
  have c1 := moveSquare_contained g g.sq1 w1 h1
  have c2 := moveSquare_contained g g.sq2 w2 h2
  have hle := collisionPhase_W_le (beforeCollision g d)
    (by rw [m1, mi1]; exact i1) (by rw [m2, mi2]; exact i2)
  rw [m1, mw1, m2, mw2] at hle
  rw [m1] at px1 py1 pi1
  rw [m2] at px2 py2 pi2
  unfold SizeInv Contained at *
  rw [f1, f2, f3, f4, updateGameLogic_eq, a1, a2, px1, py1, px2, py2, pi1, pi2, mi1, mi2]
  obtain ⟨l1, l2⟩ := hle
  obtain ⟨c11, c12, c13, c14⟩ := c1
  obtain ⟨c21, c22, c23, c24⟩ := c2
  refine ⟨⟨i1, i2, ?_, ?_, ?_, ?_⟩, ⟨c11, c12, ?_, ?_⟩, ⟨c21, c22, ?_, ?_⟩⟩ <;> linarith

theorem runTicks_contained (ds : List Draw) :
    ∀ g : Game, SizeInv g → ds ≠ [] →
      Contained (runTicks g ds) (runTicks g ds).sq1 ∧
        Contained (runTicks g ds) (runTicks g ds).sq2 := by
  induction ds with
  | nil => intro g _ h; exact absurd rfl h
  | cons d ds ih =>
    intro g hg _
    obtain ⟨hs, hc1, hc2⟩ := tick_contained g d hg
    by_cases hds : ds = []
    · subst hds
      exact ⟨hc1, hc2⟩
    · exact ih (updateGameLogic g d) hs hds

theorem resetGameState_sizeInv (g : Game) (hw : 60 ≤ g.fieldW) (hh : 60 ≤ g.fieldH) :
    SizeInv (resetGameState g) := by
  unfold SizeInv resetGameState
  norm_num
  exact ⟨hw, hh, hw, hh⟩

/-- C1 (containment invariant): on a field with `fw ≥ 60` and `fh ≥ 60`, after any
positive number of ticks from the initial round configuration, with arbitrary
random draws, both squares satisfy `fx ≤ x`, `fy ≤ y`, `x+w ≤ fx+fw`, `y+w ≤ fy+fh`. -/
theorem containment_invariant (g : Game) (ds : List Draw)
    (hw : 60 ≤ g.fieldW) (hh : 60 ≤ g.fieldH) (hne : ds ≠ []) :
    Contained (runTicks (resetGameState g) ds) (runTicks (resetGameState g) ds).sq1 ∧
      Contained (runTicks (resetGameState g) ds) (runTicks (resetGameState g) ds).sq2 :=
  runTicks_contained ds (resetGameState g) (resetGameState_sizeInv g hw hh) hne

theorem containment_invariant_witness :
    (60 ≤ NewGame.fieldW ∧ 60 ≤ NewGame.fieldH ∧ [sampleDraw, sampleDraw] ≠ []) ∧
      Contained (runTicks (resetGameState NewGame) [sampleDraw, sampleDraw])
        (runTicks (resetGameState NewGame) [sampleDraw, sampleDraw]).sq1 ∧
      Contained (runTicks (resetGameState NewGame) [sampleDraw, sampleDraw])
        (runTicks (resetGameState NewGame) [sampleDraw, sampleDraw]).sq2 :=
  ⟨⟨by norm_num [NewGame, resetGameState, zeroGame, windowW],
    by norm_num [NewGame, resetGameState, zeroGame, windowH, truncToInt], by simp⟩,
   containment_invariant NewGame [sampleDraw, sampleDraw]
    (by norm_num [NewGame, resetGameState, zeroGame, windowW])
    (by norm_num [NewGame, resetGameState, zeroGame, windowH, truncToInt]) (by simp)⟩

/-! ## Shrink law (C2) -/

/-- The shrink step of the collision phase when the first square is Red and the
second is Green, by tint. -/
theorem collisionPhase_shrink (m : Game) (hc1 : m.sq1.Col = redColor)
    (hc2 : m.sq2.Col = greenColor) :
    (aabbOverlap m.sq1 m.sq2 = true →
      (m.bgColor = grayColor →
        (collisionPhase m).sq1.W = m.sq1.W - m.sq1.InitW * 0.2 ∧
        (collisionPhase m).sq2.W = m.sq2.W - m.sq2.InitW * 0.2) ∧
      (m.bgColor = lightRedColor →
        (collisionPhase m).sq1.W = m.sq1.W ∧
        (collisionPhase m).sq2.W = m.sq2.W - m.sq2.InitW * 0.2) ∧
      (m.bgColor = lightGreenColor →
        (collisionPhase m).sq1.W = m.sq1.W - m.sq1.InitW * 0.2 ∧
        (collisionPhase m).sq2.W = m.sq2.W)) ∧
    (aabbOverlap m.sq1 m.sq2 = false →
      (collisionPhase m).sq1.W = m.sq1.W ∧ (collisionPhase m).sq2.W = m.sq2.W) := by
  have e1 : colorsEqual grayColor redColor = false := by decide
  have e2 : colorsEqual grayColor greenColor = false := by decide
  have e3 : colorsEqual redColor redColor = true := by decide
  have e4 : colorsEqual redColor greenColor = false := by decide
  have e5 : colorsEqual greenColor redColor = false := by decide
  have e6 : colorsEqual greenColor greenColor = true := by decide
  have n1 : grayColor ≠ lightRedColor := by decide
  have n2 : grayColor ≠ lightGreenColor := by decide
  have n3 : lightGreenColor ≠ lightRedColor := by decide
  refine ⟨fun hov => ⟨fun hb => ?_, fun hb => ?_, fun hb => ?_⟩, fun hov => ?_⟩
  · simp [collisionPhase, hov, hb, hc1, hc2, n1, n2, e1, e2, shrunkRatio]
  · simp [collisionPhase, hov, hb, hc1, hc2, e3, e4, shrunkRatio]
  · simp [collisionPhase, hov, hb, hc1, hc2, n3, e5, e6, shrunkRatio]
  · simp [collisionPhase, hov]

/-- C2 (shrink law): with sq1 Red and sq2 Green, on a tick where the moved squares
overlap, a Gray tint at collision time shrinks both sizes by exactly `InitW*0.2`,
LightRed shrinks only sq2 and LightGreen shrinks only sq1; on a tick without
overlap neither size changes. -/
theorem shrink_law (g : Game) (d : Draw)
    (hc1 : g.sq1.Col = redColor) (hc2 : g.sq2.Col = greenColor) :
    (aabbOverlap (beforeCollision g d).sq1 (beforeCollision g d).sq2 = true →
      ((beforeCollision g d).bgColor = grayColor →
        (updateGameLogic g d).sq1.W = g.sq1.W - g.sq1.InitW * 0.2 ∧
        (updateGameLogic g d).sq2.W = g.sq2.W - g.sq2.InitW * 0.2) ∧
      ((beforeCollision g d).bgColor = lightRedColor →
        (updateGameLogic g d).sq1.W = g.sq1.W ∧
        (updateGameLogic g d).sq2.W = g.sq2.W - g.sq2.InitW * 0.2) ∧
      ((beforeCollision g d).bgColor = lightGreenColor →
        (updateGameLogic g d).sq1.W = g.sq1.W - g.sq1.InitW * 0.2 ∧
        (updateGameLogic g d).sq2.W = g.sq2.W)) ∧
    (aabbOverlap (beforeCollision g d).sq1 (beforeCollision g d).sq2 = false →
      (updateGameLogic g d).sq1.W = g.sq1.W ∧ (updateGameLogic g d).sq2.W = g.sq2.W) := by
  obtain ⟨m1, m2⟩ := beforeCollision_squares g d
  obtain ⟨a1, a2, -⟩ := deathCheck_frame (collisionPhase (beforeCollision g d))
  obtain ⟨mw1, mi1, mc1, -⟩ := moveSquare_frame g g.sq1
  obtain ⟨mw2, mi2, mc2, -⟩ := moveSquare_frame g g.sq2
  have key := collisionPhase_shrink (beforeCollision g d)
    (by rw [m1, mc1]; exact hc1) (by rw [m2, mc2]; exact hc2)
  rw [updateGameLogic_eq, a1, a2]
  rw [m1, m2, mw1, mw2, mi1, mi2] at key
  rw [m1, m2]
  exact key

theorem shrink_law_witness :
    (overlapGame.sq1.Col = redColor ∧ overlapGame.sq2.Col = greenColor ∧
      aabbOverlap (beforeCollision overlapGame sampleDraw).sq1
        (beforeCollision overlapGame sampleDraw).sq2 = true ∧
      (beforeCollision overlapGame sampleDraw).bgColor = grayColor) ∧
    (updateGameLogic overlapGame sampleDraw).sq1.W =
      overlapGame.sq1.W - overlapGame.sq1.InitW * 0.2 ∧
    (updateGameLogic overlapGame sampleDraw).sq2.W =
      overlapGame.sq2.W - overlapGame.sq2.InitW * 0.2 :=
  ⟨by decide!,
   ((shrink_law overlapGame sampleDraw (by decide!) (by decide!)).1 (by decide!)).1 (by decide!)⟩

/-! ## Winner determination (C3) -/

theorem afterCollision_names (g : Game) (d : Draw) :
    (afterCollision g d).sq1.Name = g.sq1.Name ∧ (afterCollision g d).sq2.Name = g.sq2.Name ∧
      (afterCollision g d).screen = g.screen ∧
      (afterCollision g d).winnerName = g.winnerName := by
  unfold afterCollision
  obtain ⟨-, -, -, -, -, -, -, -, n1, n2⟩ := collisionPhase_squares (beforeCollision g d)
  obtain ⟨-, -, -, -, s1, w1, -⟩ := collisionPhase_frame (beforeCollision g d)
  obtain ⟨m1, m2⟩ := beforeCollision_squares g d
  obtain ⟨-, -, -, mn1⟩ := moveSquare_frame g g.sq1
  obtain ⟨-, -, -, mn2⟩ := moveSquare_frame g g.sq2
  unfold beforeCollision at s1 w1
  obtain ⟨-, -, -, -, -, -, c7, c8, -⟩ := pickupPhase_frame (movePhase (spawnPhase g d))
  obtain ⟨-, -, -, -, -, -, -, d8, d9, -⟩ := movePhase_frame (spawnPhase g d)
  obtain ⟨-, -, -, -, -, -, -, e8, e9⟩ := spawnPhase_frame g d
  refine ⟨?_, ?_, ?_, ?_⟩
  · rw [n1, m1, mn1]
  · rw [n2, m2, mn2]
  · unfold beforeCollision; rw [s1, c7, d8, e8]
  · unfold beforeCollision; rw [w1, c8, d9, e9]

/-- C3 (winner determination): a tick ends on the GameOver screen exactly when
some square has `W ≤ 0` after the collision step (for a tick started on another
screen); the winner label is then "Pair" when both have `W ≤ 0`, `sq2.Name` when
only sq1 has, `sq1.Name` when only sq2 has. When both `W > 0` the screen and the
winner label are unchanged. The death check itself changes no size. -/
theorem winner_determination (g : Game) (d : Draw) :
    ((updateGameLogic g d).sq1.W = (afterCollision g d).sq1.W ∧
      (updateGameLogic g d).sq2.W = (afterCollision g d).sq2.W) ∧
    (g.screen ≠ Screen.ScreenGameOver →
      ((updateGameLogic g d).screen = Screen.ScreenGameOver ↔
        ((afterCollision g d).sq1.W ≤ 0 ∨ (afterCollision g d).sq2.W ≤ 0))) ∧
    ((afterCollision g d).sq1.W ≤ 0 ∧ (afterCollision g d).sq2.W ≤ 0 →
      (updateGameLogic g d).screen = Screen.ScreenGameOver ∧
        (updateGameLogic g d).winnerName = "Pair") ∧
    ((afterCollision g d).sq1.W ≤ 0 ∧ 0 < (afterCollision g d).sq2.W →
      (updateGameLogic g d).screen = Screen.ScreenGameOver ∧
        (updateGameLogic g d).winnerName = g.sq2.Name) ∧
    (0 < (afterCollision g d).sq1.W ∧ (afterCollision g d).sq2.W ≤ 0 →
      (updateGameLogic g d).screen = Screen.ScreenGameOver ∧
        (updateGameLogic g d).winnerName = g.sq1.Name) ∧
    (0 < (afterCollision g d).sq1.W ∧ 0 < (afterCollision g d).sq2.W →
      (updateGameLogic g d).screen = g.screen ∧
        (updateGameLogic g d).winnerName = g.winnerName) := by
  obtain ⟨n1, n2, hs, hwn⟩ := afterCollision_names g d
  have hu : updateGameLogic g d = deathCheck (afterCollision g d) := rfl
  rw [hu, ← n1, ← n2, ← hs, ← hwn]
  generalize afterCollision g d = c
  refine ⟨?_, ?_, ?_, ?_, ?_, ?_⟩
  · simp [(deathCheck_frame c).1, (deathCheck_frame c).2.1]
  · intro hne
    unfold deathCheck
    by_cases h : c.sq1.W ≤ 0 ∨ c.sq2.W ≤ 0
    · simp [h]
    · simp [h, hne]
  · rintro ⟨h1, h2⟩
    simp [deathCheck, h1, h2]
  · rintro ⟨h1, h2⟩
    simp [deathCheck, h1, not_le.mpr h2]
  · rintro ⟨h1, h2⟩
    simp [deathCheck, h2, not_le.mpr h1]
  · rintro ⟨h1, h2⟩
    simp [deathCheck, not_le.mpr h1, not_le.mpr h2]

theorem winner_determination_witness :
    ((afterCollision lastHitGame sampleDraw).sq1.W ≤ 0 ∧
      0 < (afterCollision lastHitGame sampleDraw).sq2.W) ∧
    (updateGameLogic lastHitGame sampleDraw).screen = Screen.ScreenGameOver ∧
    (updateGameLogic lastHitGame sampleDraw).winnerName = lastHitGame.sq2.Name :=
  ⟨by decide!, (winner_determination lastHitGame sampleDraw).2.2.2.1 (by decide!)⟩

/-! ## Overlap of two squares (C4) -/

/-- C4, as stated, fails: two squares of side 10 whose edges merely touch
(`a.X + a.W = b.X`, same y-range) are reported as overlapping, and the collision
step on them swaps the velocities and shrinks both squares. -/
theorem touching_edges_counterexample :
    touchA.X + touchA.W = touchB.X ∧ touchA.Y = touchB.Y ∧
      aabbOverlap touchA touchB = true ∧
      (collisionPhase touchGame).sq1.VX = touchB.VX ∧
      (collisionPhase touchGame).sq2.VX = touchA.VX ∧
      (collisionPhase touchGame).sq1.W = 8 ∧ (collisionPhase touchGame).sq2.W = 8 := by
  decide!

/-- C4, amended: `aabbOverlap` is true exactly when none of the four strict
separations holds, so it is inclusive: squares of non-negative size whose
boundaries merely touch on any of the four sides, with the ranges on the other
axis intersecting, do overlap. -/
theorem aabbOverlap_inclusive (a b : Square) :
    (aabbOverlap a b = true ↔
      (b.X ≤ a.X + a.W ∧ a.X ≤ b.X + b.W ∧ b.Y ≤ a.Y + a.W ∧ a.Y ≤ b.Y + b.W)) ∧
    (0 ≤ a.W → 0 ≤ b.W → b.Y ≤ a.Y + a.W → a.Y ≤ b.Y + b.W →
      (a.X + a.W = b.X ∨ b.X + b.W = a.X) → aabbOverlap a b = true) ∧
    (0 ≤ a.W → 0 ≤ b.W → b.X ≤ a.X + a.W → a.X ≤ b.X + b.W →
      (a.Y + a.W = b.Y ∨ b.Y + b.W = a.Y) → aabbOverlap a b = true) := by
  have key : aabbOverlap a b = true ↔
      (b.X ≤ a.X + a.W ∧ a.X ≤ b.X + b.W ∧ b.Y ≤ a.Y + a.W ∧ a.Y ≤ b.Y + b.W) := by
    simp [aabbOverlap, and_assoc]
  refine ⟨key, ?_, ?_⟩
  · intro ha hb h1 h2 h
    rw [key]
    rcases h with h | h
    · exact ⟨by linarith, by linarith, h1, h2⟩
    · exact ⟨by linarith, by linarith, h1, h2⟩
  · intro ha hb h1 h2 h
    rw [key]
    rcases h with h | h
    · exact ⟨h1, h2, by linarith, by linarith⟩
    · exact ⟨h1, h2, by linarith, by linarith⟩

theorem aabbOverlap_inclusive_witness :
    (0 ≤ touchA.W ∧ 0 ≤ touchB.W ∧ touchB.Y ≤ touchA.Y + touchA.W ∧
      touchA.Y ≤ touchB.Y + touchB.W ∧ touchA.X + touchA.W = touchB.X) ∧
    aabbOverlap touchA touchB = true :=
  ⟨by decide!, (aabbOverlap_inclusive touchA touchB).2.1 (by decide!) (by decide!) (by decide!)
    (by decide!) (Or.inl (by decide!))⟩

/-! ## Spawn schedule (C5) -/

/-- The pickup list and tick counter at the end of a tick are those left by the
pickup phase. -/
theorem updateGameLogic_pickups (g : Game) (d : Draw) :
    (updateGameLogic g d).pickups = (beforeCollision g d).pickups ∧
      (updateGameLogic g d).ticks = (spawnPhase g d).ticks ∧
      (updateGameLogic g d).bgColor = (beforeCollision g d).bgColor := by
  obtain ⟨-, -, -, -, -, -, a7, a8, a9⟩ := deathCheck_frame (collisionPhase (beforeCollision g d))
  obtain ⟨-, -, -, -, -, -, b7, b8, b9⟩ := collisionPhase_frame (beforeCollision g d)
  obtain ⟨-, -, -, -, -, -, -, -, c9⟩ := pickupPhase_frame (movePhase (spawnPhase g d))
  obtain ⟨-, -, -, -, -, -, -, -, -, -, d11⟩ := movePhase_frame (spawnPhase g d)
  rw [updateGameLogic_eq, a7, a8, a9, b7, b8, b9]
  refine ⟨rfl, ?_, rfl⟩
  unfold beforeCollision
  rw [c9, d11]

/-- C5, as stated, fails: after the first tick of the default round the pickup
list is empty, not a singleton. -/
theorem spawn_at_zero_counterexample :
    runningGame.ticks = 0 ∧ runningGame.pickups = [] ∧
      (updateGameLogic runningGame sampleDraw).pickups.length ≠ 1 := by
  decide!

/-- C5, amended: from a freshly initialised round, the first tick sets the tick
counter to 1 and leaves the pickup list empty, for every random draw (the counter
is incremented before the `ticks % 360 == 0` test). -/
theorem first_tick_no_spawn (g : Game) (d : Draw) :
    (updateGameLogic (resetGameState g) d).ticks = 1 ∧
      (updateGameLogic (resetGameState g) d).pickups = [] := by
  obtain ⟨h1, h2, -⟩ := updateGameLogic_pickups (resetGameState g) d
  have hs : spawnPhase (resetGameState g) d = { resetGameState g with ticks := 1 } := by
    have ht : Int.tmod 1 360 ≠ 0 := by decide
    simp [spawnPhase, resetGameState, wrapInt64, ht]
  rw [h1, h2, hs]
  refine ⟨rfl, ?_⟩
  simp [beforeCollision, hs, pickupPhase, (movePhase_frame _).2.2.2.2.2.2.2.2.2.1,
    resetGameState, pickupLoop]

/-! ## The pickup list (C6) -/

/-- The `remaining` slice built by the pickup loop: the pickups touched by neither
square are appended in order. -/
theorem pickupLoop_remaining (sq1 sq2 : Square) (ps : List CirclePickup) :
    ∀ (bg : RGBA) (acc : List CirclePickup),
      (pickupLoop sq1 sq2 ps bg acc).2 = acc ++ ps.filter (fun p => !eaten sq1 sq2 p) := by
  induction ps with
  | nil => intro bg acc; simp [pickupLoop]
  | cons p ps ih =>
    intro bg acc
    by_cases h : eaten sq1 sq2 p = true
    · have h' : (overlapsSquareCircle sq1 p || overlapsSquareCircle sq2 p) = true := h
      rw [pickupLoop, if_pos h', ih]
      simp [h]
    · have h' : ¬ (overlapsSquareCircle sq1 p || overlapsSquareCircle sq2 p) = true := h
      rw [pickupLoop, if_neg h', ih]
      simp [h]

theorem pickupPhase_pickups (g : Game) :
    (pickupPhase g).pickups = g.pickups.filter (fun p => !eaten g.sq1 g.sq2 p) := by
  simp [pickupPhase, pickupLoop_remaining]

/-- After the spawn phase the list is either the old one (no spawn) or exactly the
new pickup. -/
theorem spawnPhase_pickups (g : Game) (d : Draw) :
    (spawnPhase g d).pickups = g.pickups ∨ (spawnPhase g d).pickups.length = 1 := by
  unfold spawnPhase
  simp only
  split_ifs with h1 h2
  · right
    simp [spawnPickup]
  · right
    have : g.pickups = [] := by simpa using h2
    simp [spawnPickup, this]
  · left
    rfl

theorem tick_pickups_le_one (g : Game) (d : Draw) (h : g.pickups.length ≤ 1) :
    (updateGameLogic g d).pickups.length ≤ 1 := by
  obtain ⟨h1, -⟩ := updateGameLogic_pickups g d
  rw [h1]
  unfold beforeCollision
  rw [pickupPhase_pickups]
  refine le_trans (List.length_filter_le _ _) ?_
  rw [(movePhase_frame _).2.2.2.2.2.2.2.2.2.1]
  rcases spawnPhase_pickups g d with hs | hs
  · rw [hs]; exact h
  · rw [hs]

theorem runTicks_pickups_le_one (ds : List Draw) :
    ∀ g : Game, g.pickups.length ≤ 1 → (runTicks g ds).pickups.length ≤ 1 := by
  induction ds with
  | nil => intro g h; exact h
  | cons d ds ih => intro g h; exact ih _ (tick_pickups_le_one g d h)

/-- C6 (at most one pickup): in every state reached from the initial round
configuration by any number of ticks with any random draws, the pickup list has
length 0 or 1. -/
theorem at_most_one_pickup (g : Game) (ds : List Draw) :
    (runTicks (resetGameState g) ds).pickups.length = 0 ∨
      (runTicks (resetGameState g) ds).pickups.length = 1 := by
  have h := runTicks_pickups_le_one ds (resetGameState g) (by simp [resetGameState])
  omega

/-! ## Periodic replacement (C7) -/

/-- C7, as stated, fails: at tick 359 with one pickup present, a draw that places
the new pickup under the Red square leaves an empty list after the tick, because
the new pickup is consumed in the tick that spawned it. -/
theorem periodic_replacement_counterexample :
    periodGame.ticks = 359 ∧ periodGame.pickups ≠ [] ∧ sampleDraw.valid = true ∧
      (updateGameLogic periodGame sampleDraw).ticks = 360 ∧
      (updateGameLogic periodGame sampleDraw).pickups.length ≠ 1 := by
  decide!

theorem spawnPhase_at_359 (g : Game) (d : Draw) (ht : g.ticks = 359) :
    (spawnPhase g d).ticks = 360 ∧ (spawnPhase g d).pickups = [newPickup g d] := by
  have h0 : wrapInt64 (359 + 1) = 360 := by decide
  have h1 : Int.tmod 360 360 = 0 := by decide
  unfold spawnPhase
  simp only [ht, h0, h1, if_true]
  by_cases hp : g.pickups.length ≠ 0
  · simp [hp, spawnPickup, newPickup]
  · have : g.pickups = [] := by simpa using hp
    simp [this, spawnPickup, newPickup]

/-- C7, amended: from a state with tick counter 359, for every draw, the next tick
sets the counter to 360, drops every old pickup, and leaves exactly the newly
spawned pickup unless one of the moved squares touches it, in which case the new
pickup is consumed in the same tick and the list is empty. -/
theorem periodic_replacement (g : Game) (d : Draw) (ht : g.ticks = 359) :
    (updateGameLogic g d).ticks = 360 ∧
      (updateGameLogic g d).pickups =
        if eaten (moveSquare g g.sq1) (moveSquare g g.sq2) (newPickup g d) = true then []
        else [newPickup g d] := by
  obtain ⟨h1, h2, -⟩ := updateGameLogic_pickups g d
  obtain ⟨s1, s2⟩ := spawnPhase_at_359 g d ht
  obtain ⟨m1, m2⟩ := beforeCollision_squares g d
  refine ⟨by rw [h2, s1], ?_⟩
  rw [h1]
  have hb : (beforeCollision g d).pickups =
      (movePhase (spawnPhase g d)).pickups.filter
        (fun p => !eaten (beforeCollision g d).sq1 (beforeCollision g d).sq2 p) := by
    unfold beforeCollision
    rw [pickupPhase_pickups, (pickupPhase_frame _).1, (pickupPhase_frame _).2.1]
  rw [hb, (movePhase_frame _).2.2.2.2.2.2.2.2.2.1, s2, m1, m2]
  by_cases he : eaten (moveSquare g g.sq1) (moveSquare g g.sq2) (newPickup g d) = true
  · simp [he]
  · simp [he]

theorem periodic_replacement_witness :
    periodGame.ticks = 359 ∧
      (updateGameLogic periodGame farDraw).ticks = 360 ∧
      (updateGameLogic periodGame farDraw).pickups =
        if eaten (moveSquare periodGame periodGame.sq1) (moveSquare periodGame periodGame.sq2)
          (newPickup periodGame farDraw) = true then []
        else [newPickup periodGame farDraw] :=
  ⟨by decide!, periodic_replacement periodGame farDraw (by decide!)⟩

/-! ## Pickup placement (C8) -/

theorem newPickup_inShrunkField (g : Game) (d : Draw) (hw : 20 ≤ g.fieldW)
    (hh : 20 ≤ g.fieldH) (hd : d.valid = true) : InShrunkField g (newPickup g d) := by
  simp only [Draw.valid, Bool.and_eq_true, decide_eq_true_eq] at hd
  obtain ⟨⟨⟨⟨⟨-, -⟩, x0⟩, x1⟩, y0⟩, y1⟩ := hd
  have hx0 : 0 ≤ d.randX * (g.fieldW - 20) := mul_nonneg x0 (by linarith)
  have hx1 : d.randX * (g.fieldW - 20) ≤ g.fieldW - 20 :=
    mul_le_of_le_one_left (by linarith) (le_of_lt x1)
  have hy0 : 0 ≤ d.randY * (g.fieldH - 20) := mul_nonneg y0 (by linarith)
  have hy1 : d.randY * (g.fieldH - 20) ≤ g.fieldH - 20 :=
    mul_le_of_le_one_left (by linarith) (le_of_lt y1)
  unfold InShrunkField newPickup
  norm_num
  refine ⟨?_, ?_, ?_, ?_⟩ <;> linarith

theorem spawnPhase_pickups_new (g : Game) (d : Draw) :
    (spawnPhase g d).pickups = g.pickups ∨ (spawnPhase g d).pickups = [newPickup g d] := by
  unfold spawnPhase
  simp only
  split_ifs with h1 h2
  · right
    simp [spawnPickup, newPickup]
  · right
    have : g.pickups = [] := by simpa using h2
    simp [spawnPickup, newPickup, this]
  · left
    rfl

theorem tick_pickups_inShrunkField (g : Game) (d : Draw) (hw : 20 ≤ g.fieldW)
    (hh : 20 ≤ g.fieldH) (hd : d.valid = true) (h : ∀ p ∈ g.pickups, InShrunkField g p) :
    ∀ p ∈ (updateGameLogic g d).pickups, InShrunkField g p := by
  intro p hp
  rw [(updateGameLogic_pickups g d).1] at hp
  unfold beforeCollision at hp
  rw [pickupPhase_pickups] at hp
  have hp' := (List.mem_filter.mp hp).1
  rw [(movePhase_frame _).2.2.2.2.2.2.2.2.2.1] at hp'
  rcases spawnPhase_pickups_new g d with hs | hs
  · rw [hs] at hp'
    exact h p hp'
  · rw [hs] at hp'
    rw [List.mem_singleton.mp hp']
    exact newPickup_inShrunkField g d hw hh hd

theorem runTicks_field (ds : List Draw) :
    ∀ g : Game, (runTicks g ds).fieldX = g.fieldX ∧ (runTicks g ds).fieldY = g.fieldY ∧
      (runTicks g ds).fieldW = g.fieldW ∧ (runTicks g ds).fieldH = g.fieldH := by
  induction ds with
  | nil => intro g; exact ⟨rfl, rfl, rfl, rfl⟩
  | cons d ds ih =>
    intro g
    obtain ⟨a1, a2, a3, a4⟩ := ih (updateGameLogic g d)
    obtain ⟨b1, b2, b3, b4⟩ := updateGameLogic_field g d
    exact ⟨a1.trans b1, a2.trans b2, a3.trans b3, a4.trans b4⟩

theorem inShrunkField_congr (g h : Game) (p : CirclePickup) (e1 : h.fieldX = g.fieldX)
    (e2 : h.fieldY = g.fieldY) (e3 : h.fieldW = g.fieldW) (e4 : h.fieldH = g.fieldH) :
    InShrunkField g p → InShrunkField h p := by
  unfold InShrunkField
  rw [e1, e2, e3, e4]
  exact id

theorem runTicks_pickups_inShrunkField (ds : List Draw) :
    ∀ g : Game, 20 ≤ g.fieldW → 20 ≤ g.fieldH → (∀ d ∈ ds, d.valid = true) →
      (∀ p ∈ g.pickups, InShrunkField g p) →
      ∀ p ∈ (runTicks g ds).pickups, InShrunkField g p := by
  induction ds with
  | nil => intro g _ _ _ h; exact h
  | cons d ds ih =>
    intro g hw hh hv h p hp
    obtain ⟨b1, b2, b3, b4⟩ := updateGameLogic_field g d
    have hstep := tick_pickups_inShrunkField g d hw hh (hv d (List.mem_cons_self d ds)) h
    have := ih (updateGameLogic g d) (by rw [b3]; exact hw) (by rw [b4]; exact hh)
      (fun e he => hv e (List.mem_cons_of_mem d he))
      (fun q hq => inShrunkField_congr g _ q b1 b2 b3 b4 (hstep q hq)) p hp
    exact inShrunkField_congr _ g p b1.symm b2.symm b3.symm b4.symm this

/-- C8 (pickup placement): on a field with `fw ≥ 20` and `fh ≥ 20`, for every draw
in range, `spawnPickup` appends exactly one pickup, of radius 10, coloured
Red/Green/Gray for colour draw 0/1/2, with centre in
`[fx+10, fx+fw-10] × [fy+10, fy+fh-10]`; consequently every pickup of every state
reached from the initial round configuration lies in that shrunk rectangle. -/
theorem pickup_placement (g : Game) (hw : 20 ≤ g.fieldW) (hh : 20 ≤ g.fieldH) :
    (∀ d : Draw, d.valid = true →
      (spawnPickup g d).pickups = g.pickups ++ [newPickup g d] ∧
      (newPickup g d).R = 10 ∧
      (d.randNum = 0 → (newPickup g d).Col = redColor) ∧
      (d.randNum = 1 → (newPickup g d).Col = greenColor) ∧
      (d.randNum = 2 → (newPickup g d).Col = grayColor) ∧
      g.fieldX + 10 ≤ (newPickup g d).X ∧ (newPickup g d).X ≤ g.fieldX + g.fieldW - 10 ∧
      g.fieldY + 10 ≤ (newPickup g d).Y ∧ (newPickup g d).Y ≤ g.fieldY + g.fieldH - 10) ∧
    (∀ ds : List Draw, (∀ d ∈ ds, d.valid = true) →
      ∀ p ∈ (runTicks (resetGameState g) ds).pickups,
        InShrunkField (runTicks (resetGameState g) ds) p) := by
  constructor
  · intro d hd
    obtain ⟨r, x0, x1, y0, y1⟩ := newPickup_inShrunkField g d hw hh hd
    refine ⟨rfl, r, ?_, ?_, ?_, x0, x1, y0, y1⟩
    · intro h; simp [newPickup, h]
    · intro h; simp [newPickup, h]
    · intro h; simp [newPickup, h]
  · intro ds hv p hp
    obtain ⟨a1, a2, a3, a4⟩ := runTicks_field ds (resetGameState g)
    refine inShrunkField_congr (resetGameState g) _ p a1 a2 a3 a4 ?_
    exact runTicks_pickups_inShrunkField ds (resetGameState g) hw hh hv
      (by simp [resetGameState]) p hp

theorem pickup_placement_witness :
    (20 ≤ runningGame.fieldW ∧ 20 ≤ runningGame.fieldH ∧ farDraw.valid = true) ∧
      (spawnPickup runningGame farDraw).pickups =
        runningGame.pickups ++ [newPickup runningGame farDraw] ∧
      (newPickup runningGame farDraw).R = 10 ∧
      (newPickup runningGame farDraw).Col = greenColor ∧
      runningGame.fieldX + 10 ≤ (newPickup runningGame farDraw).X ∧
      (newPickup runningGame farDraw).X ≤ runningGame.fieldX + runningGame.fieldW - 10 ∧
      runningGame.fieldY + 10 ≤ (newPickup runningGame farDraw).Y ∧
      (newPickup runningGame farDraw).Y ≤ runningGame.fieldY + runningGame.fieldH - 10 :=
  by
  have hw : 20 ≤ runningGame.fieldW := by decide!
  have hh : 20 ≤ runningGame.fieldH := by decide!
  have hd : farDraw.valid = true := by decide!
  have hn : farDraw.randNum = 1 := rfl
  have h := (pickup_placement runningGame hw hh).1 farDraw hd
  exact ⟨⟨hw, hh, hd⟩, h.1, h.2.1, h.2.2.2.1 hn, h.2.2.2.2.2⟩

/-! ## Pickup consumption (C9) -/

/-- The background colour left by the pickup loop: the tint of the last consumed
pickup, or the incoming colour when nothing is consumed. -/
theorem pickupLoop_bg (sq1 sq2 : Square) (ps : List CirclePickup) :
    ∀ (bg : RGBA) (acc : List CirclePickup),
      (pickupLoop sq1 sq2 ps bg acc).1 =
        match (ps.filter (fun p => eaten sq1 sq2 p)).getLast? with
        | none => bg
        | some p => tintFor p.Col := by
  induction ps with
  | nil => intro bg acc; simp [pickupLoop]
  | cons p ps ih =>
    intro bg acc
    by_cases h : eaten sq1 sq2 p = true
    · have h' : (overlapsSquareCircle sq1 p || overlapsSquareCircle sq2 p) = true := h
      rw [pickupLoop, if_pos h', ih, List.filter_cons_of_pos h]
      cases hl : ps.filter (fun p => eaten sq1 sq2 p) with
      | nil => simp
      | cons q l =>
        rw [List.getLast?_cons_cons]
        cases hq : (q :: l).getLast? with
        | none => simp at hq
        | some z => rfl
    · have h' : ¬ (overlapsSquareCircle sq1 p || overlapsSquareCircle sq2 p) = true := h
      rw [pickupLoop, if_neg h', ih, List.filter_cons_of_neg h]

theorem pickupPhase_bg (g : Game) :
    (pickupPhase g).bgColor =
      match (g.pickups.filter (fun p => eaten g.sq1 g.sq2 p)).getLast? with
      | none => g.bgColor
      | some p => tintFor p.Col := by
  simp only [pickupPhase]
  exact pickupLoop_bg g.sq1 g.sq2 g.pickups g.bgColor []

/-- Outside the spawn schedule the spawn phase only advances the tick counter; the
random draw is not used. -/
theorem spawnPhase_no_spawn (g : Game) (d : Draw)
    (h : (wrapInt64 (g.ticks + 1)).tmod 360 ≠ 0) :
    spawnPhase g d = { g with ticks := wrapInt64 (g.ticks + 1) } := by
  unfold spawnPhase
  simp only [h, if_false]

theorem tintFor_cases (c : RGBA) :
    (c = redColor → tintFor c = lightRedColor) ∧ (c = greenColor → tintFor c = lightGreenColor) ∧
      (c = grayColor → tintFor c = grayColor) := by
  refine ⟨?_, ?_, ?_⟩ <;> intro h <;> subst h <;> decide

/-- C9 (pickup consumption): after a tick the pickup list is exactly the sub-list,
in the original order and with unchanged elements, of the pickups present after
the spawn phase that are touched by neither moved square; if some pickup was
touched, the tint is LightRed / LightGreen / Gray according to the colour
Red / Green / Gray of the last consumed one, and if none was touched the tint is
unchanged. In particular a Red pickup at the centre of sq1 in the default round
gives an empty list and tint LightRed after one tick. -/
theorem pickup_consumption (g : Game) (d : Draw) :
    (updateGameLogic g d).pickups =
      (spawnPhase g d).pickups.filter
        (fun p => !eaten (moveSquare g g.sq1) (moveSquare g g.sq2) p) ∧
    (∀ p : CirclePickup,
      ((spawnPhase g d).pickups.filter
        (fun p => eaten (moveSquare g g.sq1) (moveSquare g g.sq2) p)).getLast? = some p →
      (p.Col = redColor → (updateGameLogic g d).bgColor = lightRedColor) ∧
      (p.Col = greenColor → (updateGameLogic g d).bgColor = lightGreenColor) ∧
      (p.Col = grayColor → (updateGameLogic g d).bgColor = grayColor)) ∧
    ((spawnPhase g d).pickups.filter
        (fun p => eaten (moveSquare g g.sq1) (moveSquare g g.sq2) p) = [] →
      (updateGameLogic g d).bgColor = g.bgColor) ∧
    ((updateGameLogic redPickupGame d).pickups = [] ∧
      (updateGameLogic redPickupGame d).bgColor = lightRedColor) := by
  obtain ⟨h1, -, h3⟩ := updateGameLogic_pickups g d
  obtain ⟨m1, m2⟩ := beforeCollision_squares g d
  have hs1 : (movePhase (spawnPhase g d)).sq1 = moveSquare g g.sq1 := by
    rw [← m1]; unfold beforeCollision; rw [(pickupPhase_frame _).1]
  have hs2 : (movePhase (spawnPhase g d)).sq2 = moveSquare g g.sq2 := by
    rw [← m2]; unfold beforeCollision; rw [(pickupPhase_frame _).2.1]
  have hp : (movePhase (spawnPhase g d)).pickups = (spawnPhase g d).pickups :=
    (movePhase_frame _).2.2.2.2.2.2.2.2.2.1
  have hbg : (movePhase (spawnPhase g d)).bgColor = g.bgColor := by
    rw [(movePhase_frame _).2.2.2.2.2.2.1, (spawnPhase_frame g d).2.2.2.2.2.2.1]
  have hb := pickupPhase_bg (movePhase (spawnPhase g d))
  rw [hs1, hs2, hp, hbg] at hb
  refine ⟨?_, ?_, ?_, ?_⟩
  · rw [h1]
    unfold beforeCollision
    rw [pickupPhase_pickups, hs1, hs2, hp]
  · intro p hlast
    rw [h3]
    unfold beforeCollision
    rw [hb, hlast]
    exact tintFor_cases p.Col
  · intro hnone
    rw [h3]
    unfold beforeCollision
    rw [hb, hnone]
    rfl
  · have hs := spawnPhase_no_spawn redPickupGame d (by decide!)
    unfold updateGameLogic
    rw [hs]
    decide!

theorem pickup_consumption_witness :
    ((spawnPhase redPickupGame sampleDraw).pickups.filter
        (fun p => eaten (moveSquare redPickupGame redPickupGame.sq1)
          (moveSquare redPickupGame redPickupGame.sq2) p)).getLast? =
      some { X := 160, Y := 210, R := 10, Col := redColor } ∧
    (updateGameLogic redPickupGame sampleDraw).bgColor = lightRedColor :=
  ⟨by decide!,
   ((pickup_consumption redPickupGame sampleDraw).2.1
      { X := 160, Y := 210, R := 10, Col := redColor } (by decide!)).1 rfl⟩

/-! ## Wall reflection (C10) -/

/-- C10 (wall reflection): for a square with `W ≤ fw` and `W ≤ fh`, `moveSquare`
integrates the position and then, per axis: past the left/top wall it snaps to the
wall and makes the velocity component `|v|`; with the (possibly snapped) far edge
past the right/bottom wall it snaps flush to that wall and makes the component
`-|v|`; otherwise the integrated position and the original component are kept. In
the default round with sq1 velocity `(100, 0)`: `x = 230`, `vx = 100` after one
tick, no wall is crossed during ticks 1-5, and on tick 6 `x = 690`, `vx = -100`. -/
theorem wall_reflection (g : Game) (s : Square) (hw : s.W ≤ g.fieldW) (hh : s.W ≤ g.fieldH) :
    (s.X + s.VX < g.fieldX →
      (moveSquare g s).X = g.fieldX ∧ (moveSquare g s).VX = |s.VX|) ∧
    ((if s.X + s.VX < g.fieldX then g.fieldX else s.X + s.VX) + s.W > g.fieldX + g.fieldW →
      (moveSquare g s).X = g.fieldX + g.fieldW - s.W ∧ (moveSquare g s).VX = -|s.VX|) ∧
    (g.fieldX ≤ s.X + s.VX → s.X + s.VX + s.W ≤ g.fieldX + g.fieldW →
      (moveSquare g s).X = s.X + s.VX ∧ (moveSquare g s).VX = s.VX) ∧
    (s.Y + s.VY < g.fieldY →
      (moveSquare g s).Y = g.fieldY ∧ (moveSquare g s).VY = |s.VY|) ∧
    ((if s.Y + s.VY < g.fieldY then g.fieldY else s.Y + s.VY) + s.W > g.fieldY + g.fieldH →
      (moveSquare g s).Y = g.fieldY + g.fieldH - s.W ∧ (moveSquare g s).VY = -|s.VY|) ∧
    (g.fieldY ≤ s.Y + s.VY → s.Y + s.VY + s.W ≤ g.fieldY + g.fieldH →
      (moveSquare g s).Y = s.Y + s.VY ∧ (moveSquare g s).VY = s.VY) ∧
    ((runTicks fastGame [sampleDraw]).sq1.X = 230 ∧
      (runTicks fastGame [sampleDraw]).sq1.VX = 100 ∧
      (runTicks fastGame (List.replicate 2 sampleDraw)).sq1.X = 330 ∧
      (runTicks fastGame (List.replicate 2 sampleDraw)).sq1.VX = 100 ∧
      (runTicks fastGame (List.replicate 3 sampleDraw)).sq1.X = 430 ∧
      (runTicks fastGame (List.replicate 3 sampleDraw)).sq1.VX = 100 ∧
      (runTicks fastGame (List.replicate 4 sampleDraw)).sq1.X = 530 ∧
      (runTicks fastGame (List.replicate 4 sampleDraw)).sq1.VX = 100 ∧
      (runTicks fastGame (List.replicate 5 sampleDraw)).sq1.X = 630 ∧
      (runTicks fastGame (List.replicate 5 sampleDraw)).sq1.VX = 100 ∧
      (runTicks fastGame (List.replicate 6 sampleDraw)).sq1.X = 690 ∧
      (runTicks fastGame (List.replicate 6 sampleDraw)).sq1.VX = -100) := by
  refine ⟨?_, ?_, ?_, ?_, ?_, ?_, by decide!⟩
  · intro h1
    have h2 : ¬ (g.fieldX + s.W > g.fieldX + g.fieldW) := by linarith
    unfold moveSquare
    simp only [h1, if_true]
    split_ifs <;> simp_all
  · intro h
    unfold moveSquare
    simp only
    by_cases h1 : s.X + s.VX < g.fieldX
    · rw [if_pos h1] at h
      exact absurd h (by linarith)
    · rw [if_neg h1] at h
      simp only [h1, if_false]
      split_ifs <;> simp_all
  · intro h1 h2
    unfold moveSquare
    simp only [not_lt.mpr h1, if_false]
    split_ifs <;> simp_all <;> linarith
  · intro h1
    have h2 : ¬ (g.fieldY + s.W > g.fieldY + g.fieldH) := by linarith
    unfold moveSquare
    simp only
    split_ifs <;> simp_all
  · intro h
    unfold moveSquare
    simp only
    by_cases h1 : s.Y + s.VY < g.fieldY
    · rw [if_pos h1] at h
      exact absurd h (by linarith)
    · rw [if_neg h1] at h
      split_ifs <;> simp_all
  · intro h1 h2
    unfold moveSquare
    simp only
    split_ifs <;> simp_all <;> linarith

theorem wall_reflection_witness :
    (fastGame.sq1.W ≤ fastGame.fieldW ∧ fastGame.sq1.W ≤ fastGame.fieldH ∧
      fastGame.fieldX ≤ fastGame.sq1.X + fastGame.sq1.VX ∧
      fastGame.sq1.X + fastGame.sq1.VX + fastGame.sq1.W ≤ fastGame.fieldX + fastGame.fieldW) ∧
    (moveSquare fastGame fastGame.sq1).X = fastGame.sq1.X + fastGame.sq1.VX ∧
    (moveSquare fastGame fastGame.sq1).VX = fastGame.sq1.VX :=
  ⟨by decide!,
   (wall_reflection fastGame fastGame.sq1 (by decide!) (by decide!)).2.2.1
     (by decide!) (by decide!)⟩

/-! ## Velocity swap (C11) -/

/-- The velocities and positions after the collision phase when the squares
overlap: the two velocity vectors are exchanged, the positions are kept. -/
theorem collisionPhase_swap (m : Game) (h : aabbOverlap m.sq1 m.sq2 = true) :
    (collisionPhase m).sq1.VX = m.sq2.VX ∧ (collisionPhase m).sq1.VY = m.sq2.VY ∧
      (collisionPhase m).sq2.VX = m.sq1.VX ∧ (collisionPhase m).sq2.VY = m.sq1.VY := by
  unfold collisionPhase
  simp only [h, if_true]
  split_ifs <;> simp

/-- C11 (velocity swap): on a tick where the moved squares overlap, the collision
step gives sq1 the post-motion velocity of sq2 and sq2 the post-motion velocity of
sq1, leaves both positions unchanged, and so preserves the multiset
`{|vx1|, |vy1|, |vx2|, |vy2|}`. -/
theorem velocity_swap (g : Game) (d : Draw)
    (h : aabbOverlap (beforeCollision g d).sq1 (beforeCollision g d).sq2 = true) :
    ((updateGameLogic g d).sq1.VX = (beforeCollision g d).sq2.VX ∧
      (updateGameLogic g d).sq1.VY = (beforeCollision g d).sq2.VY ∧
      (updateGameLogic g d).sq2.VX = (beforeCollision g d).sq1.VX ∧
      (updateGameLogic g d).sq2.VY = (beforeCollision g d).sq1.VY) ∧
    ((updateGameLogic g d).sq1.X = (beforeCollision g d).sq1.X ∧
      (updateGameLogic g d).sq1.Y = (beforeCollision g d).sq1.Y ∧
      (updateGameLogic g d).sq2.X = (beforeCollision g d).sq2.X ∧
      (updateGameLogic g d).sq2.Y = (beforeCollision g d).sq2.Y) ∧
    ({|(updateGameLogic g d).sq1.VX|, |(updateGameLogic g d).sq1.VY|,
        |(updateGameLogic g d).sq2.VX|, |(updateGameLogic g d).sq2.VY|} : Multiset ℚ) =
      {|(beforeCollision g d).sq1.VX|, |(beforeCollision g d).sq1.VY|,
        |(beforeCollision g d).sq2.VX|, |(beforeCollision g d).sq2.VY|} := by
  obtain ⟨a1, a2, -⟩ := deathCheck_frame (collisionPhase (beforeCollision g d))
  obtain ⟨v1, v2, v3, v4⟩ := collisionPhase_swap (beforeCollision g d) h
  obtain ⟨p1, p2, p3, p4, -⟩ := collisionPhase_squares (beforeCollision g d)
  rw [updateGameLogic_eq, a1, a2, v1, v2, v3, v4, p1, p2, p3, p4]
  refine ⟨⟨rfl, rfl, rfl, rfl⟩, ⟨rfl, rfl, rfl, rfl⟩, ?_⟩
  simp only [Multiset.insert_eq_cons, ← Multiset.singleton_add, ← Multiset.cons_coe]
  abel

theorem velocity_swap_witness :
    aabbOverlap (beforeCollision overlapGame sampleDraw).sq1
        (beforeCollision overlapGame sampleDraw).sq2 = true ∧
      (updateGameLogic overlapGame sampleDraw).sq1.VX = -3.0 ∧
      (updateGameLogic overlapGame sampleDraw).sq1.VY = -2.8 ∧
      (updateGameLogic overlapGame sampleDraw).sq2.VX = 3.2 ∧
      (updateGameLogic overlapGame sampleDraw).sq2.VY = 2.6 := by
  have h := (velocity_swap overlapGame sampleDraw (by decide!)).1
  have e : (beforeCollision overlapGame sampleDraw).sq1.VX = 3.2 ∧
      (beforeCollision overlapGame sampleDraw).sq1.VY = 2.6 ∧
      (beforeCollision overlapGame sampleDraw).sq2.VX = -3.0 ∧
      (beforeCollision overlapGame sampleDraw).sq2.VY = -2.8 := by decide!
  rw [e.1, e.2.1, e.2.2.1, e.2.2.2] at h
  exact ⟨by decide!, h⟩

/-! ## Collision scenarios (C12, C13) -/

/-- What a tick never changes in the squares: initial size, colour and name. -/
theorem tick_squares_frame (g : Game) (d : Draw) :
    (updateGameLogic g d).sq1.InitW = g.sq1.InitW ∧ (updateGameLogic g d).sq2.InitW = g.sq2.InitW ∧
      (updateGameLogic g d).sq1.Col = g.sq1.Col ∧ (updateGameLogic g d).sq2.Col = g.sq2.Col ∧
      (updateGameLogic g d).sq1.Name = g.sq1.Name ∧
      (updateGameLogic g d).sq2.Name = g.sq2.Name := by
  obtain ⟨a1, a2, -⟩ := deathCheck_frame (collisionPhase (beforeCollision g d))
  obtain ⟨-, -, -, -, i1, i2, c1, c2, n1, n2⟩ := collisionPhase_squares (beforeCollision g d)
  obtain ⟨m1, m2⟩ := beforeCollision_squares g d
  obtain ⟨-, mi1, mc1, mn1⟩ := moveSquare_frame g g.sq1
  obtain ⟨-, mi2, mc2, mn2⟩ := moveSquare_frame g g.sq2
  rw [updateGameLogic_eq, a1, a2, i1, i2, c1, c2, n1, n2, m1, m2]
  exact ⟨mi1, mi2, mc1, mc2, mn1, mn2⟩

/-- The sizes after a tick with overlap, for a Red sq1 and a Green sq2, by the
tint at collision time. -/
theorem tick_shrink (g : Game) (d : Draw) (hc1 : g.sq1.Col = redColor)
    (hc2 : g.sq2.Col = greenColor)
    (hov : aabbOverlap (beforeCollision g d).sq1 (beforeCollision g d).sq2 = true) :
    ((beforeCollision g d).bgColor = grayColor →
      (updateGameLogic g d).sq1.W = g.sq1.W - g.sq1.InitW * 0.2 ∧
      (updateGameLogic g d).sq2.W = g.sq2.W - g.sq2.InitW * 0.2) ∧
    ((beforeCollision g d).bgColor = lightGreenColor →
      (updateGameLogic g d).sq1.W = g.sq1.W - g.sq1.InitW * 0.2 ∧
      (updateGameLogic g d).sq2.W = g.sq2.W) := by
  obtain ⟨m1, m2⟩ := beforeCollision_squares g d
  obtain ⟨a1, a2, -⟩ := deathCheck_frame (collisionPhase (beforeCollision g d))
  obtain ⟨mw1, mi1, mc1, -⟩ := moveSquare_frame g g.sq1
  obtain ⟨mw2, mi2, mc2, -⟩ := moveSquare_frame g g.sq2
  have key := (collisionPhase_shrink (beforeCollision g d)
    (by rw [m1, mc1]; exact hc1) (by rw [m2, mc2]; exact hc2)).1 hov
  rw [updateGameLogic_eq, a1, a2]
  rw [m1, m2, mw1, mw2, mi1, mi2] at key
  exact ⟨key.1, key.2.2⟩

/-- The outcome of the death check in terms of the sizes at the end of the tick. -/
theorem tick_outcome (g : Game) (d : Draw) :
    (0 < (updateGameLogic g d).sq1.W → 0 < (updateGameLogic g d).sq2.W →
      (updateGameLogic g d).screen = g.screen ∧
        (updateGameLogic g d).winnerName = g.winnerName) ∧
    ((updateGameLogic g d).sq1.W ≤ 0 → (updateGameLogic g d).sq2.W ≤ 0 →
      (updateGameLogic g d).screen = Screen.ScreenGameOver ∧
        (updateGameLogic g d).winnerName = "Pair") ∧
    ((updateGameLogic g d).sq1.W ≤ 0 → 0 < (updateGameLogic g d).sq2.W →
      (updateGameLogic g d).screen = Screen.ScreenGameOver ∧
        (updateGameLogic g d).winnerName = g.sq2.Name) ∧
    (0 < (updateGameLogic g d).sq1.W → (updateGameLogic g d).sq2.W ≤ 0 →
      (updateGameLogic g d).screen = Screen.ScreenGameOver ∧
        (updateGameLogic g d).winnerName = g.sq1.Name) := by
  obtain ⟨n1, n2, hs, hwn⟩ := afterCollision_names g d
  have hu : updateGameLogic g d = deathCheck (afterCollision g d) := rfl
  rw [hu, ← n1, ← n2, ← hs, ← hwn, (deathCheck_frame _).1, (deathCheck_frame _).2.1]
  generalize afterCollision g d = c
  refine ⟨?_, ?_, ?_, ?_⟩
  · intro h1 h2
    simp [deathCheck, not_le.mpr h1, not_le.mpr h2]
  · intro h1 h2
    simp [deathCheck, h1, h2]
  · intro h1 h2
    simp [deathCheck, h1, not_le.mpr h2]
  · intro h1 h2
    simp [deathCheck, h2, not_le.mpr h1]

/-- Under a Gray tint every Red or Green square is vulnerable: the collision
phase on overlapping squares shrinks both. -/
theorem collisionPhase_gray (m : Game)
    (hc1 : m.sq1.Col = redColor ∨ m.sq1.Col = greenColor)
    (hc2 : m.sq2.Col = redColor ∨ m.sq2.Col = greenColor)
    (hov : aabbOverlap m.sq1 m.sq2 = true) (hb : m.bgColor = grayColor) :
    (collisionPhase m).sq1.W = m.sq1.W - m.sq1.InitW * 0.2 ∧
      (collisionPhase m).sq2.W = m.sq2.W - m.sq2.InitW * 0.2 := by
  have e1 : colorsEqual grayColor redColor = false := by decide
  have e2 : colorsEqual grayColor greenColor = false := by decide
  have n1 : grayColor ≠ lightRedColor := by decide
  have n2 : grayColor ≠ lightGreenColor := by decide
  rcases hc1 with hc1 | hc1 <;> rcases hc2 with hc2 | hc2 <;>
    simp [collisionPhase, hov, hb, hc1, hc2, n1, n2, e1, e2, shrunkRatio]

/-- One tick with overlap under a Gray tint, from equal sizes `w`: both squares
lose 12 and keep their colours and initial sizes. -/
theorem gray_step (g : Game) (d : Draw) (w : ℚ)
    (hc1 : g.sq1.Col = redColor ∨ g.sq1.Col = greenColor)
    (hc2 : g.sq2.Col = redColor ∨ g.sq2.Col = greenColor)
    (hi1 : g.sq1.InitW = 60) (hi2 : g.sq2.InitW = 60)
    (hw1 : g.sq1.W = w) (hw2 : g.sq2.W = w)
    (hrun : collidesWithTint grayColor g [d] = true) :
    ((updateGameLogic g d).sq1.Col = redColor ∨ (updateGameLogic g d).sq1.Col = greenColor) ∧
      ((updateGameLogic g d).sq2.Col = redColor ∨ (updateGameLogic g d).sq2.Col = greenColor) ∧
      (updateGameLogic g d).sq1.InitW = 60 ∧ (updateGameLogic g d).sq2.InitW = 60 ∧
      (updateGameLogic g d).sq1.W = w - 12 ∧ (updateGameLogic g d).sq2.W = w - 12 := by
  simp only [collidesWithTint, Bool.and_true, Bool.and_eq_true, decide_eq_true_eq] at hrun
  obtain ⟨i1, i2, c1, c2, -⟩ := tick_squares_frame g d
  obtain ⟨m1, m2⟩ := beforeCollision_squares g d
  obtain ⟨a1, a2, -⟩ := deathCheck_frame (collisionPhase (beforeCollision g d))
  obtain ⟨mw1, mi1, mc1, -⟩ := moveSquare_frame g g.sq1
  obtain ⟨mw2, mi2, mc2, -⟩ := moveSquare_frame g g.sq2
  have key := collisionPhase_gray (beforeCollision g d)
    (by rw [m1, mc1]; exact hc1) (by rw [m2, mc2]; exact hc2) hrun.2 hrun.1
  rw [m1, m2, mw1, mw2, mi1, mi2, hw1, hw2, hi1, hi2] at key
  rw [c1, c2, i1, i2, updateGameLogic_eq, a1, a2]
  refine ⟨hc1, hc2, hi1, hi2, ?_, ?_⟩
  · rw [key.1]; norm_num
  · rw [key.2]; norm_num

theorem collidesWithTint_cons (tint : RGBA) (g : Game) (d : Draw) (ds : List Draw)
    (h : collidesWithTint tint g (d :: ds) = true) :
    collidesWithTint tint g [d] = true ∧ collidesWithTint tint (updateGameLogic g d) ds = true := by
  simp only [collidesWithTint, Bool.and_true, Bool.and_eq_true, decide_eq_true_eq] at h ⊢
  exact ⟨h.1, h.2⟩

theorem runTicks_nil (g : Game) : runTicks g [] = g := rfl

theorem runTicks_cons (g : Game) (d : Draw) (ds : List Draw) :
    runTicks g (d :: ds) = runTicks (updateGameLogic g d) ds := rfl

/-- C12 (mutual vulnerability): from a running state whose squares are Red or Green
(the colours of the data model), both of size `W = InitW = 60`, five consecutive
ticks that each see a Gray tint at collision time and overlapping squares bring both
sizes to 48, 36, 24, 12 and 0; the game is still running after each of the first
four ticks and after the fifth it is finished with winner label "Pair". -/
theorem mutual_vulnerability (g : Game) (d1 d2 d3 d4 d5 : Draw)
    (hs : g.screen = Screen.ScreenGame)
    (hc1 : g.sq1.Col = redColor ∨ g.sq1.Col = greenColor)
    (hc2 : g.sq2.Col = redColor ∨ g.sq2.Col = greenColor)
    (hw1 : g.sq1.W = 60) (hi1 : g.sq1.InitW = 60)
    (hw2 : g.sq2.W = 60) (hi2 : g.sq2.InitW = 60)
    (hrun : collidesWithTint grayColor g [d1, d2, d3, d4, d5] = true) :
    ((runTicks g [d1]).sq1.W = 48 ∧ (runTicks g [d1]).sq2.W = 48 ∧
      (runTicks g [d1]).screen = Screen.ScreenGame) ∧
    ((runTicks g [d1, d2]).sq1.W = 36 ∧ (runTicks g [d1, d2]).sq2.W = 36 ∧
      (runTicks g [d1, d2]).screen = Screen.ScreenGame) ∧
    ((runTicks g [d1, d2, d3]).sq1.W = 24 ∧ (runTicks g [d1, d2, d3]).sq2.W = 24 ∧
      (runTicks g [d1, d2, d3]).screen = Screen.ScreenGame) ∧
    ((runTicks g [d1, d2, d3, d4]).sq1.W = 12 ∧ (runTicks g [d1, d2, d3, d4]).sq2.W = 12 ∧
      (runTicks g [d1, d2, d3, d4]).screen = Screen.ScreenGame) ∧
    ((runTicks g [d1, d2, d3, d4, d5]).sq1.W = 0 ∧
      (runTicks g [d1, d2, d3, d4, d5]).sq2.W = 0 ∧
      (runTicks g [d1, d2, d3, d4, d5]).screen = Screen.ScreenGameOver ∧
      (runTicks g [d1, d2, d3, d4, d5]).winnerName = "Pair") := by
  obtain ⟨r1, hrun⟩ := collidesWithTint_cons _ _ _ _ hrun
  obtain ⟨r2, hrun⟩ := collidesWithTint_cons _ _ _ _ hrun
  obtain ⟨r3, hrun⟩ := collidesWithTint_cons _ _ _ _ hrun
  obtain ⟨r4, r5⟩ := collidesWithTint_cons _ _ _ _ hrun
  simp only [runTicks_cons, runTicks_nil]
  obtain ⟨a1, a2, a3, a4, a5, a6⟩ := gray_step g d1 60 hc1 hc2 hi1 hi2 hw1 hw2 r1
  obtain ⟨b1, b2, b3, b4, b5, b6⟩ := gray_step _ d2 _ a1 a2 a3 a4 a5 a6 r2
  obtain ⟨c1, c2, c3, c4, c5, c6⟩ := gray_step _ d3 _ b1 b2 b3 b4 b5 b6 r3
  obtain ⟨e1, e2, e3, e4, e5, e6⟩ := gray_step _ d4 _ c1 c2 c3 c4 c5 c6 r4
  obtain ⟨f1, f2, f3, f4, f5, f6⟩ := gray_step _ d5 _ e1 e2 e3 e4 e5 e6 r5
  norm_num at a5 a6 b5 b6 c5 c6 e5 e6 f5 f6
  have sa := ((tick_outcome g d1).1 (by rw [a5]; norm_num) (by rw [a6]; norm_num)).1.trans hs
  have sb := ((tick_outcome _ d2).1 (by rw [b5]; norm_num) (by rw [b6]; norm_num)).1.trans sa
  have sc := ((tick_outcome _ d3).1 (by rw [c5]; norm_num) (by rw [c6]; norm_num)).1.trans sb
  have se := ((tick_outcome _ d4).1 (by rw [e5]; norm_num) (by rw [e6]; norm_num)).1.trans sc
  have sf := (tick_outcome _ d5).2.1 (le_of_eq f5) (le_of_eq f6)
  exact ⟨⟨a5, a6, sa⟩, ⟨b5, b6, sb⟩, ⟨c5, c6, sc⟩, ⟨e5, e6, se⟩, ⟨f5, f6, sf.1, sf.2⟩⟩

theorem mutual_vulnerability_witness :
    (overlapGame.screen = Screen.ScreenGame ∧
      (overlapGame.sq1.Col = redColor ∨ overlapGame.sq1.Col = greenColor) ∧
      (overlapGame.sq2.Col = redColor ∨ overlapGame.sq2.Col = greenColor) ∧
      overlapGame.sq1.W = 60 ∧ overlapGame.sq1.InitW = 60 ∧
      overlapGame.sq2.W = 60 ∧ overlapGame.sq2.InitW = 60 ∧
      collidesWithTint grayColor overlapGame
        [sampleDraw, sampleDraw, sampleDraw, sampleDraw, sampleDraw] = true) ∧
    (runTicks overlapGame [sampleDraw, sampleDraw, sampleDraw, sampleDraw, sampleDraw]).sq1.W = 0 ∧
    (runTicks overlapGame [sampleDraw, sampleDraw, sampleDraw, sampleDraw, sampleDraw]).sq2.W = 0 ∧
    (runTicks overlapGame [sampleDraw, sampleDraw, sampleDraw, sampleDraw, sampleDraw]).screen =
      Screen.ScreenGameOver ∧
    (runTicks overlapGame [sampleDraw, sampleDraw, sampleDraw, sampleDraw, sampleDraw]).winnerName =
      "Pair" :=
  ⟨by decide!,
   (mutual_vulnerability overlapGame sampleDraw sampleDraw sampleDraw sampleDraw sampleDraw
      (by decide!) (by decide!) (by decide!) (by decide!) (by decide!) (by decide!) (by decide!)
      (by decide!)).2.2.2.2⟩

/-- One tick with overlap under a LightGreen tint: the Red sq1 loses 12, the Green
sq2 keeps its size, and colours, names and initial sizes are kept. -/
theorem lightGreen_step (g : Game) (d : Draw) (w : ℚ) (hc1 : g.sq1.Col = redColor)
    (hc2 : g.sq2.Col = greenColor) (hi1 : g.sq1.InitW = 60) (hn2 : g.sq2.Name = "Green")
    (hw1 : g.sq1.W = w) (hw2 : g.sq2.W = 60)
    (hrun : collidesWithTint lightGreenColor g [d] = true) :
    (updateGameLogic g d).sq1.Col = redColor ∧ (updateGameLogic g d).sq2.Col = greenColor ∧
      (updateGameLogic g d).sq1.InitW = 60 ∧ (updateGameLogic g d).sq2.Name = "Green" ∧
      (updateGameLogic g d).sq1.W = w - 12 ∧ (updateGameLogic g d).sq2.W = 60 := by
  simp only [collidesWithTint, Bool.and_true, Bool.and_eq_true, decide_eq_true_eq] at hrun
  obtain ⟨i1, -, c1, c2, -, n2⟩ := tick_squares_frame g d
  obtain ⟨s1, s2⟩ := (tick_shrink g d hc1 hc2 hrun.2).2 hrun.1
  rw [hw1, hi1] at s1
  rw [hw2] at s2
  refine ⟨c1.trans hc1, c2.trans hc2, i1.trans hi1, n2.trans hn2, ?_, s2⟩
  rw [s1]; norm_num

/-- C13 (single winner): from a running state with the default squares (sq1 Red
named "Red", sq2 Green named "Green", both `W = InitW = 60`), five consecutive
ticks that each see a LightGreen tint at collision time and overlapping squares
bring `sq1.W` to 48, 36, 24, 12 and 0 while `sq2.W` stays 60; the game is still
running after the first four ticks and after the fifth it is finished with winner
label `sq2.Name = "Green"`. The name of sq1 and the initial size of sq2 play no
role, so they are not assumed. -/
theorem single_winner (g : Game) (d1 d2 d3 d4 d5 : Draw)
    (hs : g.screen = Screen.ScreenGame)
    (hc1 : g.sq1.Col = redColor)
    (hc2 : g.sq2.Col = greenColor) (hn2 : g.sq2.Name = "Green")
    (hw1 : g.sq1.W = 60) (hi1 : g.sq1.InitW = 60) (hw2 : g.sq2.W = 60)
    (hrun : collidesWithTint lightGreenColor g [d1, d2, d3, d4, d5] = true) :
    ((runTicks g [d1]).sq1.W = 48 ∧ (runTicks g [d1]).sq2.W = 60 ∧
      (runTicks g [d1]).screen = Screen.ScreenGame) ∧
    ((runTicks g [d1, d2]).sq1.W = 36 ∧ (runTicks g [d1, d2]).sq2.W = 60 ∧
      (runTicks g [d1, d2]).screen = Screen.ScreenGame) ∧
    ((runTicks g [d1, d2, d3]).sq1.W = 24 ∧ (runTicks g [d1, d2, d3]).sq2.W = 60 ∧
      (runTicks g [d1, d2, d3]).screen = Screen.ScreenGame) ∧
    ((runTicks g [d1, d2, d3, d4]).sq1.W = 12 ∧ (runTicks g [d1, d2, d3, d4]).sq2.W = 60 ∧
      (runTicks g [d1, d2, d3, d4]).screen = Screen.ScreenGame) ∧
    ((runTicks g [d1, d2, d3, d4, d5]).sq1.W = 0 ∧
      (runTicks g [d1, d2, d3, d4, d5]).sq2.W = 60 ∧
      (runTicks g [d1, d2, d3, d4, d5]).screen = Screen.ScreenGameOver ∧
      (runTicks g [d1, d2, d3, d4, d5]).winnerName = "Green" ∧
      (runTicks g [d1, d2, d3, d4, d5]).winnerName = (runTicks g [d1, d2, d3, d4, d5]).sq2.Name) := by
  obtain ⟨r1, hrun⟩ := collidesWithTint_cons _ _ _ _ hrun
  obtain ⟨r2, hrun⟩ := collidesWithTint_cons _ _ _ _ hrun
  obtain ⟨r3, hrun⟩ := collidesWithTint_cons _ _ _ _ hrun
  obtain ⟨r4, r5⟩ := collidesWithTint_cons _ _ _ _ hrun
  simp only [runTicks_cons, runTicks_nil]
  obtain ⟨a1, a2, a3, a4, a5, a6⟩ := lightGreen_step g d1 60 hc1 hc2 hi1 hn2 hw1 hw2 r1
  obtain ⟨b1, b2, b3, b4, b5, b6⟩ := lightGreen_step _ d2 _ a1 a2 a3 a4 a5 a6 r2
  obtain ⟨c1, c2, c3, c4, c5, c6⟩ := lightGreen_step _ d3 _ b1 b2 b3 b4 b5 b6 r3
  obtain ⟨e1, e2, e3, e4, e5, e6⟩ := lightGreen_step _ d4 _ c1 c2 c3 c4 c5 c6 r4
  obtain ⟨f1, f2, f3, f4, f5, f6⟩ := lightGreen_step _ d5 _ e1 e2 e3 e4 e5 e6 r5
  norm_num at a5 b5 c5 e5 f5
  have sa := ((tick_outcome g d1).1 (by rw [a5]; norm_num) (by rw [a6]; norm_num)).1.trans hs
  have sb := ((tick_outcome _ d2).1 (by rw [b5]; norm_num) (by rw [b6]; norm_num)).1.trans sa
  have sc := ((tick_outcome _ d3).1 (by rw [c5]; norm_num) (by rw [c6]; norm_num)).1.trans sb
  have se := ((tick_outcome _ d4).1 (by rw [e5]; norm_num) (by rw [e6]; norm_num)).1.trans sc
  have sf := (tick_outcome _ d5).2.2.1 (le_of_eq f5) (by rw [f6]; norm_num)
  refine ⟨⟨a5, a6, sa⟩, ⟨b5, b6, sb⟩, ⟨c5, c6, sc⟩, ⟨e5, e6, se⟩, ⟨f5, f6, sf.1, ?_, ?_⟩⟩
  · rw [sf.2]; exact e4
  · rw [sf.2, f4]; exact e4

theorem single_winner_witness :
    (lightGreenGame.screen = Screen.ScreenGame ∧
      lightGreenGame.sq1.Col = redColor ∧ lightGreenGame.sq1.Name = "Red" ∧
      lightGreenGame.sq2.Col = greenColor ∧ lightGreenGame.sq2.Name = "Green" ∧
      lightGreenGame.sq1.W = 60 ∧ lightGreenGame.sq1.InitW = 60 ∧
      lightGreenGame.sq2.W = 60 ∧ lightGreenGame.sq2.InitW = 60 ∧
      collidesWithTint lightGreenColor lightGreenGame
        [sampleDraw, sampleDraw, sampleDraw, sampleDraw, sampleDraw] = true) ∧
    (runTicks lightGreenGame [sampleDraw, sampleDraw, sampleDraw, sampleDraw, sampleDraw]).sq1.W
      = 0 ∧
    (runTicks lightGreenGame [sampleDraw, sampleDraw, sampleDraw, sampleDraw, sampleDraw]).sq2.W
      = 60 ∧
    (runTicks lightGreenGame
      [sampleDraw, sampleDraw, sampleDraw, sampleDraw, sampleDraw]).screen =
      Screen.ScreenGameOver ∧
    (runTicks lightGreenGame
      [sampleDraw, sampleDraw, sampleDraw, sampleDraw, sampleDraw]).winnerName = "Green" := by
  have h := (single_winner lightGreenGame sampleDraw sampleDraw sampleDraw sampleDraw sampleDraw
      (by decide!) (by decide!) (by decide!) (by decide!) (by decide!) (by decide!) (by decide!)
      (by decide!)).2.2.2.2
  exact ⟨by decide!, h.1, h.2.1, h.2.2.1, h.2.2.2.1⟩

/-! ## Size lattice (C14) -/

/-- A tick changes each size by zero or one shrink step. -/
theorem tick_W_step (g : Game) (d : Draw) :
    ((updateGameLogic g d).sq1.W = g.sq1.W ∨
      (updateGameLogic g d).sq1.W = g.sq1.W - g.sq1.InitW * 0.2) ∧
    ((updateGameLogic g d).sq2.W = g.sq2.W ∨
      (updateGameLogic g d).sq2.W = g.sq2.W - g.sq2.InitW * 0.2) := by
  obtain ⟨m1, m2⟩ := beforeCollision_squares g d
  obtain ⟨a1, a2, -⟩ := deathCheck_frame (collisionPhase (beforeCollision g d))
  obtain ⟨mw1, mi1, -⟩ := moveSquare_frame g g.sq1
  obtain ⟨mw2, mi2, -⟩ := moveSquare_frame g g.sq2
  have key : ∀ m : Game,
      ((collisionPhase m).sq1.W = m.sq1.W ∨
        (collisionPhase m).sq1.W = m.sq1.W - m.sq1.InitW * 0.2) ∧
      ((collisionPhase m).sq2.W = m.sq2.W ∨
        (collisionPhase m).sq2.W = m.sq2.W - m.sq2.InitW * 0.2) := by
    intro m
    unfold collisionPhase
    simp only
    split_ifs <;> simp [shrunkRatio]
  have k := key (beforeCollision g d)
  rw [m1, m2, mw1, mw2, mi1, mi2] at k
  rw [updateGameLogic_eq, a1, a2]
  exact k

/-- A tick that ends on the game screen leaves both sizes positive. -/
theorem tick_running_alive (g : Game) (d : Draw)
    (h : (updateGameLogic g d).screen = Screen.ScreenGame) :
    0 < (updateGameLogic g d).sq1.W ∧ 0 < (updateGameLogic g d).sq2.W := by
  obtain ⟨-, h2, h3, h4⟩ := tick_outcome g d
  by_cases c1 : (updateGameLogic g d).sq1.W ≤ 0
  · by_cases c2 : (updateGameLogic g d).sq2.W ≤ 0
    · have := (h2 c1 c2).1
      rw [h] at this
      exact absurd this (by decide)
    · have := (h3 c1 (not_le.mp c2)).1
      rw [h] at this
      exact absurd this (by decide)
  · by_cases c2 : (updateGameLogic g d).sq2.W ≤ 0
    · have := (h4 (not_le.mp c1) c2).1
      rw [h] at this
      exact absurd this (by decide)
    · exact ⟨not_le.mp c1, not_le.mp c2⟩

theorem frameInv_reset (g : Game) (s : Screen) :
    FrameInv { resetGameState g with screen := s } := by
  unfold FrameInv resetGameState
  refine ⟨by norm_num, by norm_num, ⟨0, by norm_num, by norm_num⟩, ⟨0, by norm_num, by norm_num⟩,
    fun _ => ⟨by norm_num, by norm_num⟩⟩

theorem frameInv_screen (g : Game) (s : Screen) (h : FrameInv g)
    (hs : s ≠ Screen.ScreenGame) : FrameInv { g with screen := s } := by
  obtain ⟨i1, i2, k1, k2, -⟩ := h
  exact ⟨i1, i2, k1, k2, fun e => absurd e hs⟩

/-- The frame invariant is kept by a tick started on the game screen. -/
theorem frameInv_tick (g : Game) (d : Draw) (h : FrameInv g)
    (hs : g.screen = Screen.ScreenGame) : FrameInv (updateGameLogic g d) := by
  obtain ⟨i1, i2, ⟨k1, hk1, e1⟩, ⟨k2, hk2, e2⟩, hpos⟩ := h
  obtain ⟨p1, p2⟩ := hpos hs
  obtain ⟨j1, j2, -⟩ := tick_squares_frame g d
  obtain ⟨s1, s2⟩ := tick_W_step g d
  have hk1' : k1 ≤ 4 := by
    by_contra hc
    have : (5 : ℚ) ≤ k1 := by exact_mod_cast (by omega : 5 ≤ k1)
    linarith
  have hk2' : k2 ≤ 4 := by
    by_contra hc
    have : (5 : ℚ) ≤ k2 := by exact_mod_cast (by omega : 5 ≤ k2)
    linarith
  refine ⟨j1.trans i1, j2.trans i2, ?_, ?_, tick_running_alive g d⟩
  · rcases s1 with s | s
    · exact ⟨k1, hk1, s.trans e1⟩
    · refine ⟨k1 + 1, by omega, ?_⟩
      rw [s, e1, i1]; push_cast; ring
  · rcases s2 with s | s
    · exact ⟨k2, hk2, s.trans e2⟩
    · refine ⟨k2 + 1, by omega, ?_⟩
      rw [s, e2, i2]; push_cast; ring

theorem frameInv_resetGameState (g : Game) : FrameInv (resetGameState g) := by
  unfold FrameInv resetGameState
  refine ⟨by norm_num, by norm_num, ⟨0, by norm_num, by norm_num⟩, ⟨0, by norm_num, by norm_num⟩,
    fun _ => ⟨by norm_num, by norm_num⟩⟩

/-- Every `Update` frame keeps the frame invariant. -/
theorem frameInv_update (g : Game) (inp : Input) (d : Draw) (r : Game) (h : FrameInv g)
    (hu : Update g inp d = some r) : FrameInv r := by
  have hne1 : Screen.ScreenExitConfirm ≠ Screen.ScreenGame := by decide
  have hne2 : Screen.ScreenMenu ≠ Screen.ScreenGame := by decide
  unfold Update at hu
  cases hsc : g.screen <;> simp only [hsc] at hu
  · -- menu
    cases hc : inp.mouseClicked <;>
      simp only [hc, Bool.false_eq_true, if_false, if_true, Option.some.injEq] at hu
    · subst hu
      exact h
    · subst hu
      cases hb : g.btnStart.Contains inp.mx inp.my <;>
        simp only [Bool.false_eq_true, if_false, if_true]
      · split_ifs
        · exact frameInv_screen _ _ h hne1
        · exact h
      · split_ifs
        · exact frameInv_screen _ _ (frameInv_resetGameState _) hne1
        · exact frameInv_resetGameState _
  · -- exit confirmation
    cases hc : inp.mouseClicked <;>
      simp only [hc, Bool.false_eq_true, if_false, if_true, Option.some.injEq] at hu
    · subst hu
      exact h
    · cases hb : g.btnBack.Contains inp.mx inp.my <;>
        simp only [hb, Bool.false_eq_true, if_false, if_true] at hu
      · split_ifs at hu
        simp only [Option.some.injEq] at hu
        subst hu
        exact h
      · split_ifs at hu
        simp only [Option.some.injEq] at hu
        subst hu
        exact frameInv_screen _ _ h hne2
  · -- game
    simp only [Option.some.injEq] at hu
    subst hu
    split_ifs
    · exact frameInv_screen _ _ (frameInv_tick g d h hsc) hne2
    · exact frameInv_tick g d h hsc
  · -- game over
    cases hc : inp.mouseClicked <;>
      simp only [hc, Bool.false_eq_true, if_false, if_true, Option.some.injEq] at hu
    · subst hu
      exact h
    · subst hu
      cases hb : g.btnRetry.Contains inp.mx inp.my <;>
        simp only [Bool.false_eq_true, if_false, if_true]
      · split_ifs
        · exact frameInv_screen _ _ h hne2
        · exact h
      · split_ifs
        · exact frameInv_screen _ _ (frameInv_reset g _) hne2
        · exact frameInv_reset g _

theorem frameInv_runFrames (fs : List (Input × Draw)) :
    ∀ g r : Game, FrameInv g → runFrames g fs = some r → FrameInv r := by
  induction fs with
  | nil =>
    intro g r h hr
    simp only [runFrames, Option.some.injEq] at hr
    subst hr
    exact h
  | cons f fs ih =>
    intro g r h hr
    unfold runFrames at hr
    cases hu : Update g f.1 f.2 with
    | none => simp [hu] at hr
    | some g' =>
      simp only [hu] at hr
      exact ih g' r (frameInv_update g f.1 f.2 g' h hu) hr

theorem frameInv_onLattice (g : Game) (h : FrameInv g) : OnLattice g.sq1 ∧ OnLattice g.sq2 := by
  obtain ⟨i1, i2, ⟨k1, hk1, e1⟩, ⟨k2, hk2, e2⟩, -⟩ := h
  have q1 : (k1 : ℚ) ≤ 5 := by exact_mod_cast hk1
  have q2 : (k2 : ℚ) ≤ 5 := by exact_mod_cast hk2
  have n1 : (0 : ℚ) ≤ k1 := Nat.cast_nonneg k1
  have n2 : (0 : ℚ) ≤ k2 := Nat.cast_nonneg k2
  unfold OnLattice
  rw [i1, i2, e1, e2]
  refine ⟨⟨⟨k1, by ring⟩, by linarith, by linarith⟩, ⟨⟨k2, by ring⟩, by linarith, by linarith⟩⟩

/-- C14 (size lattice): in every state reached from the initial round
configuration by `Update` frames (ticks on the game screen, with any inputs and any
random draws), each square's `W` equals `InitW - k * (InitW * 0.2)` for a natural
`k`, and satisfies `W ≤ InitW` and `W ≥ -(InitW * 0.2)`. -/
theorem size_lattice (g : Game) (fs : List (Input × Draw)) (r : Game)
    (h : runFrames (resetGameState g) fs = some r) : OnLattice r.sq1 ∧ OnLattice r.sq2 :=
  frameInv_onLattice r (frameInv_runFrames fs (resetGameState g) r (frameInv_resetGameState g) h)

/-- Without the screen test of `Update`, ticks applied to a state whose Red square
is already dead go on shrinking it: the lower bound of the lattice relies on ticks
stopping once a square has died. -/
theorem ungated_ticks_shrink_further :
    (runTicks engulfedGame [sampleDraw]).sq1.W = -12 ∧
      (runTicks engulfedGame [sampleDraw, sampleDraw]).sq1.W = -24 := by
  decide!

theorem size_lattice_witness :
    runFrames (resetGameState lastHitGame) [(idleInput, sampleDraw), (idleInput, sampleDraw)] =
        some (runTicks (resetGameState lastHitGame) [sampleDraw, sampleDraw]) ∧
      OnLattice (runTicks (resetGameState lastHitGame) [sampleDraw, sampleDraw]).sq1 ∧
      OnLattice (runTicks (resetGameState lastHitGame) [sampleDraw, sampleDraw]).sq2 :=
  ⟨by decide!, size_lattice lastHitGame [(idleInput, sampleDraw), (idleInput, sampleDraw)] _
    (by decide!)⟩

/-! ## Reset (C15) -/

/-- C15 (reset): for every game state, `resetGameState` puts sq1 at
`(fx+80, fy+60)` with `W = InitW = 60`, velocity `(3.2, 2.6)` and colour Red, sq2 at
`(fx+fw-140, fy+fh-140)` with `W = InitW = 60`, velocity `(-3.0, -2.8)` and colour
Green, empties the pickup list, sets the tint to Gray, the tick counter to 0 and
the winner label to the empty string, and leaves the field rectangle and the
screen unchanged. With the default 800x600 viewport the field is
`(50, 120, 700, 440)`. -/
theorem reset_configuration (g : Game) :
    ((resetGameState g).sq1.X = g.fieldX + 80 ∧ (resetGameState g).sq1.Y = g.fieldY + 60 ∧
      (resetGameState g).sq1.W = 60 ∧ (resetGameState g).sq1.InitW = 60 ∧
      (resetGameState g).sq1.VX = 3.2 ∧ (resetGameState g).sq1.VY = 2.6 ∧
      (resetGameState g).sq1.Col = redColor) ∧
    ((resetGameState g).sq2.X = g.fieldX + g.fieldW - 140 ∧
      (resetGameState g).sq2.Y = g.fieldY + g.fieldH - 140 ∧
      (resetGameState g).sq2.W = 60 ∧ (resetGameState g).sq2.InitW = 60 ∧
      (resetGameState g).sq2.VX = -3.0 ∧ (resetGameState g).sq2.VY = -2.8 ∧
      (resetGameState g).sq2.Col = greenColor) ∧
    ((resetGameState g).pickups = [] ∧ (resetGameState g).bgColor = grayColor ∧
      (resetGameState g).ticks = 0 ∧ (resetGameState g).winnerName = "") ∧
    ((resetGameState g).fieldX = g.fieldX ∧ (resetGameState g).fieldY = g.fieldY ∧
      (resetGameState g).fieldW = g.fieldW ∧ (resetGameState g).fieldH = g.fieldH ∧
      (resetGameState g).screen = g.screen) ∧
    (NewGame.fieldX = 50 ∧ NewGame.fieldY = 120 ∧ NewGame.fieldW = 700 ∧
      NewGame.fieldH = 440) := by
  refine ⟨?_, ?_, ?_, ?_, by decide!⟩
  · simp only [resetGameState]
    norm_num
  · simp only [resetGameState]
    norm_num
  · exact ⟨rfl, rfl, rfl, rfl⟩
  · exact ⟨rfl, rfl, rfl, rfl, rfl⟩

/-! ## Frames outside the game screen (C16) -/

/-- C16 (no-op frames): on the Menu, ExitConfirm or GameOver screen, an `Update`
frame with no mouse click, whatever the key state and the random source, returns
normally (no error, no exit) and leaves the whole game state unchanged: screen,
both squares, pickup list, tick counter, tint and winner label. -/
theorem update_noop_outside_game (g : Game) (inp : Input) (d : Draw)
    (hs : g.screen = Screen.ScreenMenu ∨ g.screen = Screen.ScreenExitConfirm ∨
      g.screen = Screen.ScreenGameOver)
    (hc : inp.mouseClicked = false) :
    Update g inp d = some g ∧
      ∀ r : Game, Update g inp d = some r →
        r.screen = g.screen ∧ r.sq1 = g.sq1 ∧ r.sq2 = g.sq2 ∧ r.pickups = g.pickups ∧
          r.ticks = g.ticks ∧ r.bgColor = g.bgColor ∧ r.winnerName = g.winnerName := by
  have key : Update g inp d = some g := by
    unfold Update
    rcases hs with hs | hs | hs <;> simp only [hs, hc, Bool.false_eq_true, if_false]
  refine ⟨key, ?_⟩
  intro r hr
  rw [key] at hr
  simp only [Option.some.injEq] at hr
  subst hr
  exact ⟨rfl, rfl, rfl, rfl, rfl, rfl, rfl⟩

theorem update_noop_outside_game_witness :
    ((runTicks lastHitGame [sampleDraw]).screen = Screen.ScreenGameOver ∧
      escapeInput.mouseClicked = false) ∧
    Update (runTicks lastHitGame [sampleDraw]) escapeInput sampleDraw =
      some (runTicks lastHitGame [sampleDraw]) :=
  ⟨by decide!,
   (update_noop_outside_game (runTicks lastHitGame [sampleDraw]) escapeInput sampleDraw
      (Or.inr (Or.inr (by decide!))) (by decide!)).1⟩

/-! ## Velocities (C17) -/

/-- Wall reflection changes at most the sign of each velocity component. -/
theorem moveSquare_abs (g : Game) (s : Square) :
    |(moveSquare g s).VX| = |s.VX| ∧ |(moveSquare g s).VY| = |s.VY| := by
  unfold moveSquare
  simp only
  split_ifs <;> simp [abs_abs, abs_neg]

/-- The collision phase either keeps both velocity vectors or exchanges them. -/
theorem collisionPhase_velocities (m : Game) :
    ((collisionPhase m).sq1.VX = m.sq1.VX ∧ (collisionPhase m).sq1.VY = m.sq1.VY ∧
      (collisionPhase m).sq2.VX = m.sq2.VX ∧ (collisionPhase m).sq2.VY = m.sq2.VY) ∨
    ((collisionPhase m).sq1.VX = m.sq2.VX ∧ (collisionPhase m).sq1.VY = m.sq2.VY ∧
      (collisionPhase m).sq2.VX = m.sq1.VX ∧ (collisionPhase m).sq2.VY = m.sq1.VY) := by
  by_cases h : aabbOverlap m.sq1 m.sq2 = true
  · exact Or.inr (collisionPhase_swap m h)
  · left
    unfold collisionPhase
    simp only [h, if_false]
    exact ⟨rfl, rfl, rfl, rfl⟩

theorem velInv_tick (g : Game) (d : Draw) (h : VelInv g) : VelInv (updateGameLogic g d) := by
  obtain ⟨m1, m2⟩ := beforeCollision_squares g d
  obtain ⟨a1, a2, -⟩ := deathCheck_frame (collisionPhase (beforeCollision g d))
  obtain ⟨x1, y1⟩ := moveSquare_abs g g.sq1
  obtain ⟨x2, y2⟩ := moveSquare_abs g g.sq2
  have hv := collisionPhase_velocities (beforeCollision g d)
  rw [m1, m2] at hv
  unfold VelInv at h ⊢
  rw [updateGameLogic_eq, a1, a2]
  rcases hv with ⟨e1, e2, e3, e4⟩ | ⟨e1, e2, e3, e4⟩
  · rw [e1, e2, e3, e4, x1, y1, x2, y2]
    exact h
  · rw [e1, e2, e3, e4, x1, y1, x2, y2]
    rcases h with ⟨h1, h2, h3, h4⟩ | ⟨h1, h2, h3, h4⟩
    · exact Or.inr ⟨h3, h4, h1, h2⟩
    · exact Or.inl ⟨h3, h4, h1, h2⟩

theorem velInv_runTicks (ds : List Draw) : ∀ g : Game, VelInv g → VelInv (runTicks g ds) := by
  induction ds with
  | nil => intro g h; exact h
  | cons d ds ih => intro g h; exact ih _ (velInv_tick g d h)

theorem velInv_resetGameState (g : Game) : VelInv (resetGameState g) := by
  left
  simp only [resetGameState]
  norm_num [abs_of_pos, abs_of_neg]

/-- C17 (velocities never vanish): in every state reached from the initial round
configuration by ticks with any random draws, the four velocity components are
non-zero, and `{|sq1.VX|, |sq2.VX|} = {3.2, 3.0}` and
`{|sq1.VY|, |sq2.VY|} = {2.6, 2.8}` as multisets. -/
theorem velocities_never_zero (g : Game) (ds : List Draw) :
    ((runTicks (resetGameState g) ds).sq1.VX ≠ 0 ∧ (runTicks (resetGameState g) ds).sq1.VY ≠ 0 ∧
      (runTicks (resetGameState g) ds).sq2.VX ≠ 0 ∧
      (runTicks (resetGameState g) ds).sq2.VY ≠ 0) ∧
    ({|(runTicks (resetGameState g) ds).sq1.VX|,
        |(runTicks (resetGameState g) ds).sq2.VX|} : Multiset ℚ) = {3.2, 3.0} ∧
    ({|(runTicks (resetGameState g) ds).sq1.VY|,
        |(runTicks (resetGameState g) ds).sq2.VY|} : Multiset ℚ) = {2.6, 2.8} := by
  have h := velInv_runTicks ds (resetGameState g) (velInv_resetGameState g)
  generalize runTicks (resetGameState g) ds = r at h
  have nz : ∀ x c : ℚ, |x| = c → 0 < c → x ≠ 0 := by
    intro x c hx hc h0
    rw [h0, abs_zero] at hx
    linarith
  rcases h with ⟨h1, h2, h3, h4⟩ | ⟨h1, h2, h3, h4⟩
  · refine ⟨⟨nz _ _ h1 (by norm_num), nz _ _ h2 (by norm_num), nz _ _ h3 (by norm_num),
      nz _ _ h4 (by norm_num)⟩, ?_, ?_⟩
    · rw [h1, h3]
    · rw [h2, h4]
  · refine ⟨⟨nz _ _ h1 (by norm_num), nz _ _ h2 (by norm_num), nz _ _ h3 (by norm_num),
      nz _ _ h4 (by norm_num)⟩, ?_, ?_⟩
    · rw [h1, h3]
      exact Multiset.pair_comm _ _
    · rw [h2, h4]
      exact Multiset.pair_comm _ _

/-! ## Tint (C18) -/

/-- The tint at the end of a tick: the tint of the last pickup consumed in the
tick, or the tint at the start of the tick when none is consumed. -/
theorem tick_bg (g : Game) (d : Draw) :
    (updateGameLogic g d).bgColor =
      match ((spawnPhase g d).pickups.filter
        (fun p => eaten (moveSquare g g.sq1) (moveSquare g g.sq2) p)).getLast? with
      | none => g.bgColor
      | some p => tintFor p.Col := by
  obtain ⟨-, -, h3⟩ := updateGameLogic_pickups g d
  obtain ⟨m1, m2⟩ := beforeCollision_squares g d
  have hs1 : (movePhase (spawnPhase g d)).sq1 = moveSquare g g.sq1 := by
    rw [← m1]; unfold beforeCollision; rw [(pickupPhase_frame _).1]
  have hs2 : (movePhase (spawnPhase g d)).sq2 = moveSquare g g.sq2 := by
    rw [← m2]; unfold beforeCollision; rw [(pickupPhase_frame _).2.1]
  have hp : (movePhase (spawnPhase g d)).pickups = (spawnPhase g d).pickups :=
    (movePhase_frame _).2.2.2.2.2.2.2.2.2.1
  have hbg : (movePhase (spawnPhase g d)).bgColor = g.bgColor := by
    rw [(movePhase_frame _).2.2.2.2.2.2.1, (spawnPhase_frame g d).2.2.2.2.2.2.1]
  have hb := pickupPhase_bg (movePhase (spawnPhase g d))
  rw [hs1, hs2, hp, hbg] at hb
  rw [h3]
  exact hb

theorem tintFor_mem (c : RGBA) :
    tintFor c = grayColor ∨ tintFor c = lightRedColor ∨ tintFor c = lightGreenColor := by
  unfold tintFor
  split_ifs
  · exact Or.inr (Or.inr rfl)
  · exact Or.inr (Or.inl rfl)
  · exact Or.inl rfl

theorem tick_tint_mem (g : Game) (d : Draw)
    (h : g.bgColor = grayColor ∨ g.bgColor = lightRedColor ∨ g.bgColor = lightGreenColor) :
    (updateGameLogic g d).bgColor = grayColor ∨ (updateGameLogic g d).bgColor = lightRedColor ∨
      (updateGameLogic g d).bgColor = lightGreenColor := by
  rw [tick_bg]
  cases ((spawnPhase g d).pickups.filter
      (fun p => eaten (moveSquare g g.sq1) (moveSquare g g.sq2) p)).getLast? with
  | none => exact h
  | some p => exact tintFor_mem p.Col

theorem runTicks_tint_mem (ds : List Draw) :
    ∀ g : Game,
      (g.bgColor = grayColor ∨ g.bgColor = lightRedColor ∨ g.bgColor = lightGreenColor) →
      ((runTicks g ds).bgColor = grayColor ∨ (runTicks g ds).bgColor = lightRedColor ∨
        (runTicks g ds).bgColor = lightGreenColor) := by
  induction ds with
  | nil => intro g h; exact h
  | cons d ds ih => intro g h; exact ih _ (tick_tint_mem g d h)

/-- C18 (tint frame): the tint is Gray after reset; it is Gray, LightRed or
LightGreen in every state reached from the initial round configuration; and a tick
on which no pickup is touched by either moved square, in particular every tick
whose pickup list is empty after the spawn phase, leaves the tint unchanged. -/
theorem tint_frame (g : Game) :
    (resetGameState g).bgColor = grayColor ∧
    (∀ ds : List Draw,
      (runTicks (resetGameState g) ds).bgColor = grayColor ∨
        (runTicks (resetGameState g) ds).bgColor = lightRedColor ∨
        (runTicks (resetGameState g) ds).bgColor = lightGreenColor) ∧
    (∀ d : Draw,
      (∀ p ∈ (spawnPhase g d).pickups,
        eaten (moveSquare g g.sq1) (moveSquare g g.sq2) p = false) →
      (updateGameLogic g d).bgColor = g.bgColor) ∧
    (∀ d : Draw, (spawnPhase g d).pickups = [] →
      (updateGameLogic g d).bgColor = g.bgColor) := by
  have key : ∀ d : Draw,
      (∀ p ∈ (spawnPhase g d).pickups,
        eaten (moveSquare g g.sq1) (moveSquare g g.sq2) p = false) →
      (updateGameLogic g d).bgColor = g.bgColor := by
    intro d hno
    have hnil : (spawnPhase g d).pickups.filter
        (fun p => eaten (moveSquare g g.sq1) (moveSquare g g.sq2) p) = [] := by
      rw [List.filter_eq_nil_iff]
      intro p hp
      rw [hno p hp]
      decide
    rw [tick_bg, hnil]
    rfl
  refine ⟨rfl, fun ds => runTicks_tint_mem ds _ (Or.inl rfl), key, ?_⟩
  intro d hempty
  apply key
  intro p hp
  rw [hempty] at hp
  exact absurd hp (List.not_mem_nil p)

theorem tint_frame_witness :
    (spawnPhase runningGame sampleDraw).pickups = [] ∧
      (updateGameLogic runningGame sampleDraw).bgColor = runningGame.bgColor :=
  ⟨by decide!, (tint_frame runningGame).2.2.2 sampleDraw (by decide!)⟩

/-! ## Square-circle overlap (C19) -/

/-- C20 (Escape overrides termination): an `Update` frame on the game screen with
the Escape key held returns the state of the tick with the screen set to Menu, so
the frame always ends on the Menu screen and never on GameOver. When the tick of
that frame brought a square to `W ≤ 0`, the death check of the tick did select the
GameOver screen and set the winner label ("Pair", `sq2.Name` or `sq1.Name`), and
the label is kept while the screen is overwritten. -/
theorem escape_overrides_termination (g : Game) (inp : Input) (d : Draw)
    (hs : g.screen = Screen.ScreenGame) (he : inp.escapePressed = true) :
    Update g inp d = some { updateGameLogic g d with screen := Screen.ScreenMenu } ∧
    (∀ r : Game, Update g inp d = some r →
      r.screen = Screen.ScreenMenu ∧ r.screen ≠ Screen.ScreenGameOver ∧
      r.sq1 = (updateGameLogic g d).sq1 ∧ r.sq2 = (updateGameLogic g d).sq2 ∧
      r.winnerName = (updateGameLogic g d).winnerName ∧
      ((r.sq1.W ≤ 0 ∨ r.sq2.W ≤ 0) →
        (updateGameLogic g d).screen = Screen.ScreenGameOver) ∧
      (r.sq1.W ≤ 0 → r.sq2.W ≤ 0 → r.winnerName = "Pair") ∧
      (r.sq1.W ≤ 0 → 0 < r.sq2.W → r.winnerName = g.sq2.Name) ∧
      (0 < r.sq1.W → r.sq2.W ≤ 0 → r.winnerName = g.sq1.Name)) := by
  have key : Update g inp d = some { updateGameLogic g d with screen := Screen.ScreenMenu } := by
    unfold Update
    simp only [hs, he, if_true]
  refine ⟨key, ?_⟩
  intro r hr
  rw [key] at hr
  simp only [Option.some.injEq] at hr
  subst hr
  obtain ⟨-, o2, o3, o4⟩ := tick_outcome g d
  have hmg : Screen.ScreenMenu ≠ Screen.ScreenGameOver := by decide
  refine ⟨rfl, hmg, rfl, rfl, rfl, ?_, fun a b => (o2 a b).2, fun a b => (o3 a b).2,
    fun a b => (o4 a b).2⟩
  intro hdead
  by_cases c1 : (updateGameLogic g d).sq1.W ≤ 0
  · by_cases c2 : (updateGameLogic g d).sq2.W ≤ 0
    · exact (o2 c1 c2).1
    · exact (o3 c1 (not_le.mp c2)).1
  · rcases hdead with h | h
    · exact absurd h c1
    · exact (o4 (not_le.mp c1) h).1

theorem escape_overrides_termination_witness :
    (lastHitGame.screen = Screen.ScreenGame ∧ escapeInput.escapePressed = true ∧
      (updateGameLogic lastHitGame sampleDraw).sq1.W ≤ 0 ∧
      (updateGameLogic lastHitGame sampleDraw).winnerName = "Green") ∧
    Update lastHitGame escapeInput sampleDraw =
      some { updateGameLogic lastHitGame sampleDraw with screen := Screen.ScreenMenu } :=
  ⟨by decide!,
   (escape_overrides_termination lastHitGame escapeInput sampleDraw (by decide!) (by decide!)).1⟩

end CubeGame
